import Mathlib

/-!
The indexer conformance tester of cardigann (`indexer/tester.go`).

A shallow embedding of `Tester` and of the adapter (`Runner`) it drives.

* The adapter's operations (`checkHasConfig`, `login`, `Search`, `Download`, `Ratio`)
  are state transformers on an abstract world state `σ`; every call the tester makes is
  recorded, with what it returned, in a chronological list of `Event`s, together with
  every `printf` of the tester, the debug log line, and the draining and closing of
  download streams.
* Library code the tester calls (`net/url`, `time`, `ansi`, the `torznab` category
  constants) is a parameter, `Env`.
-/

namespace Cardigann

/-! ## Data model -/

/-- A Go `error` value that is not nil. `errorf` is an error built by `fmt.Errorf` inside
`tester.go` (the rendered message); `foreign` is an error value that comes from a
collaborator (the runner, `url.Parse`, a stream read). -/
inductive GoError where
  | errorf (msg : String)
  | foreign (msg : String)
  deriving DecidableEq

/-- The method `Error()` of a Go error: its message. -/
def GoError.Error : GoError → String
  | .errorf msg => msg
  | .foreign msg => msg

/-- Modelled from the spec: `torznab.ResultItem` is declared outside `tester.go`; these are
the four required fields the tester reads (title, size as an unsigned byte count, link, site). -/
structure ResultItem where
  Title : String
  Size : Nat
  Link : String
  Site : String
  deriving DecidableEq

/-- Modelled from the spec: `torznab.Query`, declared outside `tester.go`: a mode type, a
result-count limit, a category filter, and the free-text and series filters. Every field
has Go's zero value unless set. -/
structure Query where
  Type_ : String := ""
  Limit : Int := 0
  Categories : List Int := []
  Q : String := ""
  Series : String := ""
  deriving DecidableEq

/-- Modelled from the spec: `torznab.SearchMode`, declared outside `tester.go`; the tester
reads only its key. -/
structure SearchMode where
  Key : String
  deriving DecidableEq

/-- Modelled from the spec: `torznab.Capabilities`, the declared search modes in order. -/
structure Capabilities where
  SearchModes : List SearchMode
  deriving DecidableEq

/-- Modelled from the spec: `torznab.Info`, descriptive metadata used only for reporting. -/
structure Info where
  ID : String
  Link : String
  deriving DecidableEq

/-- The part of a parsed `url.URL` the tester reads. -/
structure URL where
  Scheme : String
  deriving DecidableEq

/-- The login block of an indexer definition; `IsEmpty` is what `Login.IsEmpty()` returns. -/
structure LoginBlock where
  IsEmpty : Bool
  deriving DecidableEq

/-- The part of `Runner.definition` the tester reads. -/
structure IndexerDefinition where
  Login : LoginBlock
  deriving DecidableEq

/-- An `io.Writer` the tester prints to. -/
inductive Writer where
  | stdout
  | custom (id : Nat)
  deriving DecidableEq

/-- What a run does, in chronological order: each call to the runner with what it
returned, each `Fprintf` (writer, format and arguments, not rendered), the debug log line,
and for a download stream (named by the link it was fetched from) the `io.Copy` into
`ioutil.Discard` with its error and the `Close`. -/
inductive Event where
  | checkHasConfig (err : Option GoError)
  | login (err : Option GoError)
  | Search (q : Query) (results : List ResultItem) (err : Option GoError)
  | Download (link : String) (err : Option GoError)
  | Ratio (ratio : String) (err : Option GoError)
  | copy (link : String) (err : Option GoError)
  | close (link : String)
  | fprintf (w : Writer) (format : String) (args : List String)
  | debugf (format : String) (args : List String)
  deriving DecidableEq

/-- The `io.ReadCloser` a successful `Download` returns: reading it to the end
(`io.Copy(ioutil.Discard, rc)`) yields the copy error, `Close` releases it (its own
error is dropped by the `defer`). -/
structure ReadCloser (σ : Type) where
  copy : σ → Option GoError × σ
  Close : σ → σ

/-- The adapter. `definition`, `Info` and `Capabilities` are descriptive data (modelled
from the spec: `Runner.Info` and `Runner.Capabilities` are declared outside `tester.go`
and are metadata derived from the definition); the five operations act on the world state.
`Search` and `Ratio` return Go's pair of value and error; `Download` returns either an
error or the stream (its size hint is dropped by the tester). -/
structure Runner (σ : Type) where
  definition : IndexerDefinition
  Info : Info
  Capabilities : Capabilities
  checkHasConfig : σ → Option GoError × σ
  login : σ → Option GoError × σ
  Search : Query → σ → (List ResultItem × Option GoError) × σ
  Download : String → σ → Except GoError (ReadCloser σ) × σ
  Ratio : σ → (String × Option GoError) × σ

/-- The tester options (`TesterOpts`). -/
structure TesterOpts where
  Download : Bool
  deriving DecidableEq

/-- The tester (`Tester`); `Output = none` is Go's nil writer. -/
structure Tester (σ : Type) where
  Runner : Runner σ
  Opts : TesterOpts
  Output : Option Writer

/-- Library code and constants used by `tester.go` and defined elsewhere: `url.Parse`,
the clock read by `time.Now()` (nanoseconds), `Duration.String()`, `ansi.Color`, and the
ids of the categories `torznab.CategoryTV_HD` and `torznab.CategoryTV_SD`. -/
structure Env (σ : Type) where
  urlParse : String → Except GoError URL
  timeNow : σ → Int
  durationString : Int → String
  ansiColor : String → String → String
  CategoryTV_HD_ID : Int
  CategoryTV_SD_ID : Int

/-! ## Effects: state passing with an event log -/

/-- A computation of the tester: from a world state to a value, the state after, and the
events it produced in order. -/
def Act (σ α : Type) : Type := σ → α × σ × List Event

/-- Run a computation from a state. -/
def Act.run {σ α : Type} (m : Act σ α) (s : σ) : α × σ × List Event := m s

/-- Return a value, doing nothing. -/
def Act.pure {σ α : Type} (a : α) : Act σ α := fun s => (a, s, [])

/-- Sequence two computations; the events of the first come first. -/
def Act.bind {σ α β : Type} (m : Act σ α) (f : α → Act σ β) : Act σ β := fun s =>
  let r := m s
  let r2 := f r.1 r.2.1
  (r2.1, r2.2.1, r.2.2 ++ r2.2.2)

instance {σ : Type} : Monad (Act σ) where
  pure := Act.pure
  bind := Act.bind

/-- The value a computation returns from state `s`. -/
def Act.ret {σ α : Type} (m : Act σ α) (s : σ) : α := (m.run s).1

/-- The world state after a computation run from `s`. -/
def Act.after {σ α : Type} (m : Act σ α) (s : σ) : σ := (m.run s).2.1

/-- The events a computation run from `s` produces, in order. -/
def Act.events {σ α : Type} (m : Act σ α) (s : σ) : List Event := (m.run s).2.2

/-- Record one event. -/
def emit {σ : Type} (e : Event) : Act σ Unit := fun s => ((), s, [e])

/-- The call `time.Now()`. -/
def timeNow {σ : Type} (E : Env σ) : Act σ Int := fun s => (E.timeNow s, s, [])

/-- The call `t.Runner.checkHasConfig()`. -/
def Runner.callCheckHasConfig {σ : Type} (r : Runner σ) : Act σ (Option GoError) := fun s =>
  let out := r.checkHasConfig s
  (out.1, out.2, [Event.checkHasConfig out.1])

/-- The call `t.Runner.login()`. -/
def Runner.callLogin {σ : Type} (r : Runner σ) : Act σ (Option GoError) := fun s =>
  let out := r.login s
  (out.1, out.2, [Event.login out.1])

/-- The call `t.Runner.Search(query)`. -/
def Runner.callSearch {σ : Type} (r : Runner σ) (q : Query) :
    Act σ (List ResultItem × Option GoError) := fun s =>
  let out := r.Search q s
  (out.1, out.2, [Event.Search q out.1.1 out.1.2])

/-- The call `t.Runner.Download(link)`. -/
def Runner.callDownload {σ : Type} (r : Runner σ) (link : String) :
    Act σ (Except GoError (ReadCloser σ)) := fun s =>
  let out := r.Download link s
  (out.1, out.2,
    [Event.Download link (match out.1 with | .error err => some err | .ok _ => none)])

/-- The call `t.Runner.Ratio()`. -/
def Runner.callRatio {σ : Type} (r : Runner σ) : Act σ (String × Option GoError) := fun s =>
  let out := r.Ratio s
  (out.1, out.2, [Event.Ratio out.1.1 out.1.2])

/-- The call `io.Copy(ioutil.Discard, rc)` on the stream fetched from `link`. -/
def ioCopyDiscard {σ : Type} (link : String) (rc : ReadCloser σ) : Act σ (Option GoError) :=
  fun s =>
    let out := rc.copy s
    (out.1, out.2, [Event.copy link out.1])

/-- The call `rc.Close()` on the stream fetched from `link`. -/
def rcClose {σ : Type} (link : String) (rc : ReadCloser σ) : Act σ Unit := fun s =>
  ((), rc.Close s, [Event.close link])

/-- The call `log.Debugf(format, args...)`. -/
def logDebugf {σ : Type} (format : String) (args : List String) : Act σ Unit :=
  emit (Event.debugf format args)

/-! ## The tester -/

/-- `Tester.printf`: `Fprintf` to `t.Output`, or to standard output when it is nil. -/
def Tester.printf {σ : Type} (t : Tester σ) (format : String) (args : List String) :
    Act σ Unit :=
  let w := match t.Output with
    | none => Writer.stdout
    | some w => w
  emit (Event.fprintf w format args)

/-- `Tester.printfWithResult`: print the label, run `f`, print the status line with the
elapsed time, return what `f` returned. -/
def Tester.printfWithResult {σ : Type} (E : Env σ) (t : Tester σ) (format : String)
    (args : List String) (f : Act σ (Option GoError)) : Act σ (Option GoError) := do
  let timer ← timeNow E
  t.printf (format ++ " ") args
  let err ← f
  match err with
  | none =>
    let now ← timeNow E
    t.printf "%s %s\n"
      [E.ansiColor "SUCCESS ✓" "green",
       E.ansiColor ("in " ++ E.durationString (now - timer)) "white"]
  | some _ =>
    let now ← timeNow E
    t.printf "%s %s\n"
      [E.ansiColor "FAILURE ✗" "red",
       E.ansiColor ("in " ++ E.durationString (now - timer)) "white"]
  pure err

/-- `Tester.assertValidTorrent`. The deferred `rc.Close()` runs after the copy. -/
def Tester.assertValidTorrent {σ : Type} (E : Env σ) (t : Tester σ) (result : ResultItem) :
    Act σ (Option GoError) :=
  match E.urlParse result.Link with
  | .error err => pure (some err)
  | .ok u =>
    if u.Scheme = "magnet" then pure none
    else do
      match (← t.Runner.callDownload result.Link) with
      | .error err => pure (some err)
      | .ok rc =>
        let err ← ioCopyDiscard result.Link rc
        rcClose result.Link rc
        pure err

/-- The loop of `Tester.assertValidResults` over the results that remain, `idx` being the
0-based index of the first of them. -/
def Tester.assertValidResultsFrom {σ : Type} (E : Env σ) (t : Tester σ) :
    Nat → List ResultItem → Act σ (Option GoError)
  | _, [] => pure none
  | idx, result :: rest =>
    if result.Title = "" then
      pure (some (.errorf ("Result row " ++ toString (idx + 1) ++ " has empty title")))
    else if result.Size = 0 then
      pure (some (.errorf ("Result row " ++ toString (idx + 1) ++ " has zero size")))
    else if result.Link = "" then
      pure (some (.errorf ("Result row " ++ toString (idx + 1) ++ " has blank link")))
    else if result.Site = "" then
      pure (some (.errorf ("Result row " ++ toString (idx + 1) ++ " has blank site")))
    else if result.Link = "" then
      pure (some (.errorf ("Result row " ++ toString (idx + 1) ++ " has empty link")))
    else if t.Opts.Download then do
      match (← t.assertValidTorrent E result) with
      | some err => pure (some err)
      | none => Tester.assertValidResultsFrom E t (idx + 1) rest
    else Tester.assertValidResultsFrom E t (idx + 1) rest

/-- `Tester.assertValidResults`. -/
def Tester.assertValidResults {σ : Type} (E : Env σ) (t : Tester σ)
    (results : List ResultItem) : Act σ (Option GoError) :=
  t.assertValidResultsFrom E 0 results

/-- The query `Tester.testSearchMode` builds for a mode. -/
def searchModeQuery {σ : Type} (E : Env σ) (mode : SearchMode) : Query :=
  let query : Query := { Type_ := mode.Key, Limit := 3 }
  if mode.Key = "tv-search" then
    { query with Categories := [E.CategoryTV_HD_ID, E.CategoryTV_SD_ID] }
  else query

/-- `Tester.testSearchMode`. -/
def Tester.testSearchMode {σ : Type} (E : Env σ) (t : Tester σ) (mode : SearchMode) :
    Act σ (Option GoError) := do
  let out ← t.Runner.callSearch (searchModeQuery E mode)
  match out.2 with
  | some err => pure (some err)
  | none => t.assertValidResults E out.1

/-- `Tester.testLogin`. -/
def Tester.testLogin {σ : Type} (t : Tester σ) : Act σ (Option GoError) :=
  t.Runner.callLogin

/-- The step function of the config check in `Test`. -/
def Tester.configProbe {σ : Type} (t : Tester σ) : Act σ (Option GoError) :=
  t.Runner.callCheckHasConfig

/-- The query of the empty-result probe. -/
def emptyResultsQuery : Query := { Series := "nothingshouldmatchtheseresults" }

/-- The step function of the empty-result probe in `Test`. -/
def Tester.emptyResultsProbe {σ : Type} (t : Tester σ) : Act σ (Option GoError) := do
  let out ← t.Runner.callSearch emptyResultsQuery
  match out.2 with
  | some err => pure (some err)
  | none =>
    if out.1.length > 0 then
      pure (some (.errorf ("Expected no results, got " ++ toString out.1.length)))
    else pure none

/-- The step function of the ratio probe in `Test`. -/
def Tester.ratioProbe {σ : Type} (t : Tester σ) : Act σ (Option GoError) := do
  let out ← t.Runner.callRatio
  logDebugf "Ratio returned %s" [out.1]
  pure out.2

/-- The loop of `Test` over the search modes that remain. -/
def Tester.testSearchModes {σ : Type} (E : Env σ) (t : Tester σ) :
    List SearchMode → Act σ (Option GoError)
  | [] => pure none
  | mode :: rest => do
    match (← t.printfWithResult E "  Testing search mode %q" [mode.Key]
        (t.testSearchMode E mode)) with
    | some err => pure (some err)
    | none => Tester.testSearchModes E t rest

/-- The part of `Test` that follows the login block: the search probes, the empty-result
probe, the ratio probe. -/
def Tester.testProbes {σ : Type} (E : Env σ) (t : Tester σ) : Act σ (Option GoError) := do
  match (← t.testSearchModes E t.Runner.Capabilities.SearchModes) with
  | some err => pure (some err)
  | none =>
    match (← t.printfWithResult E "  Testing empty results are handled" []
        t.emptyResultsProbe) with
    | some err => pure (some err)
    | none =>
      match (← t.printfWithResult E "  Testing ratio" [] t.ratioProbe) with
      | some err => pure (some err)
      | none => pure none

/-- The body of `Test` between the header line and the deferred summary. -/
def Tester.testBody {σ : Type} (E : Env σ) (t : Tester σ) : Act σ (Option GoError) := do
  if !t.Runner.definition.Login.IsEmpty then
    match (← t.printfWithResult E "  Testing required config is available" []
        t.configProbe) with
    | some err => pure (some err)
    | none =>
      match (← t.printfWithResult E "  Testing login with valid credentials" []
          t.testLogin) with
      | some err => pure (some err)
      | none => t.testProbes E
  else t.testProbes E

/-- `Tester.Test`: the header line, the steps, and the deferred summary line. -/
def Tester.Test {σ : Type} (E : Env σ) (t : Tester σ) : Act σ (Option GoError) := do
  let info := t.Runner.Info
  t.printf "→ Testing indexer %s at %s\n" [info.ID, info.Link]
  let err ← t.testBody E
  match err with
  | some e =>
    t.printf "→ Indexer %s %s with %s\n"
      [info.ID, E.ansiColor "FAILED" "red", E.ansiColor e.Error "red"]
  | none =>
    t.printf "→ Indexer %s is %s\n" [info.ID, E.ansiColor "OK" "green"]
  pure err

/-! ## Observations on a run -/

/-- The steps of a run, by kind; a search probe carries its mode. -/
inductive Step where
  | config
  | login
  | search (mode : SearchMode)
  | emptyResults
  | ratio
  deriving DecidableEq

/-- The label format `Test` passes to `printfWithResult` for a step. -/
def Step.format : Step → String
  | .config => "  Testing required config is available"
  | .login => "  Testing login with valid credentials"
  | .search _ => "  Testing search mode %q"
  | .emptyResults => "  Testing empty results are handled"
  | .ratio => "  Testing ratio"

/-- The label arguments `Test` passes to `printfWithResult` for a step. -/
def Step.args : Step → List String
  | .search mode => [mode.Key]
  | _ => []

/-- The step function `Test` passes to `printfWithResult` for a step. -/
def Tester.stepFn {σ : Type} (E : Env σ) (t : Tester σ) : Step → Act σ (Option GoError)
  | .config => t.configProbe
  | .login => t.testLogin
  | .search mode => t.testSearchMode E mode
  | .emptyResults => t.emptyResultsProbe
  | .ratio => t.ratioProbe

/-- One step as `Test` runs it: the step function under `printfWithResult` with the
step's label. -/
def Tester.runStep {σ : Type} (E : Env σ) (t : Tester σ) (st : Step) :
    Act σ (Option GoError) :=
  t.printfWithResult E st.format st.args (t.stepFn E st)

/-- Run steps in order up to and including the first one that returns an error. -/
def Tester.runSteps {σ : Type} (E : Env σ) (t : Tester σ) :
    List Step → Act σ (Option GoError)
  | [] => pure none
  | st :: rest => do
    match (← t.runStep E st) with
    | some err => pure (some err)
    | none => Tester.runSteps E t rest

/-- The login steps that apply to an adapter: config check then login when the definition
has a login block, none otherwise. -/
def Tester.loginSteps {σ : Type} (t : Tester σ) : List Step :=
  if t.Runner.definition.Login.IsEmpty then [] else [Step.config, Step.login]

/-- The search probes that apply to an adapter: one per declared search mode, in the order
`Capabilities().SearchModes` lists them. -/
def Tester.searchSteps {σ : Type} (t : Tester σ) : List Step :=
  t.Runner.Capabilities.SearchModes.map Step.search

/-- The fixed order of the steps that apply to an adapter: the login steps, the search
probes, the empty-result probe, the ratio probe. -/
def Tester.fixedOrder {σ : Type} (t : Tester σ) : List Step :=
  t.loginSteps ++ t.searchSteps ++ [Step.emptyResults, Step.ratio]

/-- The writer `Tester.printf` prints to. -/
def Tester.writer {σ : Type} (t : Tester σ) : Writer :=
  match t.Output with
  | none => Writer.stdout
  | some w => w

/-- The event of printing a step's label. -/
def Tester.labelEvent {σ : Type} (t : Tester σ) (st : Step) : Event :=
  .fprintf t.writer (st.format ++ " ") st.args

/-- The event of printing a step's status line: SUCCESS when `err` is nil, FAILURE
otherwise, and the elapsed time between the clock readings `t0` and `t1`. -/
def Tester.statusEvent {σ : Type} (E : Env σ) (t : Tester σ) (err : Option GoError)
    (t0 t1 : Int) : Event :=
  .fprintf t.writer "%s %s\n"
    [match err with
      | none => E.ansiColor "SUCCESS ✓" "green"
      | some _ => E.ansiColor "FAILURE ✗" "red",
     E.ansiColor ("in " ++ E.durationString (t1 - t0)) "white"]

/-- The event of printing the header line of a run. -/
def Tester.headerEvent {σ : Type} (t : Tester σ) : Event :=
  .fprintf t.writer "→ Testing indexer %s at %s\n" [t.Runner.Info.ID, t.Runner.Info.Link]

/-- The event of printing the summary line of a run that returns `err`. -/
def Tester.summaryEvent {σ : Type} (E : Env σ) (t : Tester σ) (err : Option GoError) :
    Event :=
  match err with
  | some e => .fprintf t.writer "→ Indexer %s %s with %s\n"
      [t.Runner.Info.ID, E.ansiColor "FAILED" "red", E.ansiColor e.Error "red"]
  | none => .fprintf t.writer "→ Indexer %s is %s\n"
      [t.Runner.Info.ID, E.ansiColor "OK" "green"]

/-- The step whose label an event prints, if it prints one. -/
def stepOfEvent : Event → Option Step
  | .fprintf _ format args =>
    if format = "  Testing required config is available " then some .config
    else if format = "  Testing login with valid credentials " then some .login
    else if format = "  Testing search mode %q " then
      match args with
      | [key] => some (.search { Key := key })
      | _ => none
    else if format = "  Testing empty results are handled " then some .emptyResults
    else if format = "  Testing ratio " then some .ratio
    else none
  | _ => none

/-- The steps a run attempted, in order: the step labels it printed. -/
def stepsAttempted (evs : List Event) : List Step := evs.filterMap stepOfEvent

/-- Whether an event is a call to one of the runner's operations. -/
def Event.isCall : Event → Bool
  | .checkHasConfig _ => true
  | .login _ => true
  | .Search _ _ _ => true
  | .Download _ _ => true
  | .Ratio _ _ => true
  | _ => false

/-- Whether an event is a print of the tester. -/
def Event.isPrint : Event → Bool
  | .fprintf _ _ _ => true
  | _ => false

/-- The calls to the runner a run made, in order. -/
def adapterCalls (evs : List Event) : List Event := evs.filter Event.isCall

/-- Whether an event belongs to the fetch of a download: the `Download` call, the read of
its stream, the close of its stream. -/
def Event.isFetch : Event → Bool
  | .Download _ _ => true
  | .copy _ _ => true
  | .close _ => true
  | _ => false

/-- Whether an event is a status line of the step runner. -/
def Event.isStatus : Event → Bool
  | .fprintf _ format _ => format = "%s %s\n"
  | _ => false

/-- The status lines of a run, one per step the step runner reports. -/
def statusLines (evs : List Event) : List Event := evs.filter Event.isStatus

/-- The required fields of a result are present: title, link and site are not empty and the
size is greater than zero. -/
def ResultItem.fieldsValid (r : ResultItem) : Prop :=
  r.Title ≠ "" ∧ 0 < r.Size ∧ r.Link ≠ "" ∧ r.Site ≠ ""

instance (r : ResultItem) : Decidable r.fieldsValid := by
  unfold ResultItem.fieldsValid
  infer_instance

/-- An invalid-result error for row `k`: one of the messages "Result row k has ...". -/
def IsInvalidResult (k : Nat) (e : GoError) : Prop :=
  e = .errorf ("Result row " ++ toString k ++ " has empty title") ∨
  e = .errorf ("Result row " ++ toString k ++ " has zero size") ∨
  e = .errorf ("Result row " ++ toString k ++ " has blank link") ∨
  e = .errorf ("Result row " ++ toString k ++ " has blank site") ∨
  e = .errorf ("Result row " ++ toString k ++ " has empty link")

/-! ## Concrete adapters

A small world for evaluating the tester: the state is a counter that every operation of
the adapter advances, and that the clock reads. -/

/-- A result with every required field and an http link. -/
def goodItem : ResultItem := { Title := "a", Size := 1, Link := "http://x/1", Site := "s" }

/-- A result with every required field and a magnet link. -/
def magnetItem : ResultItem :=
  { Title := "m", Size := 7, Link := "magnet:?xt=1", Site := "s" }

/-- A result whose title is empty. -/
def noTitleItem : ResultItem := { Title := "", Size := 1, Link := "http://x/2", Site := "s" }

/-- A result whose size is zero. -/
def zeroSizeItem : ResultItem := { Title := "z", Size := 0, Link := "http://x/3", Site := "s" }

/-- An environment for the examples: the scheme of a link is what precedes its first
colon, the link "%" does not parse, colours are dropped. -/
def exampleEnv : Env Nat where
  urlParse := fun link =>
    if link = "%" then .error (.foreign "invalid URL escape")
    else .ok { Scheme := String.mk (link.data.takeWhile (fun c => c != ':')) }
  timeNow := fun s => s
  durationString := fun d => toString d ++ "ns"
  ansiColor := fun s _ => s
  CategoryTV_HD_ID := 5040
  CategoryTV_SD_ID := 5030

/-- A stream that is read to its end without error. -/
def okStream : ReadCloser Nat := { copy := fun s => (none, s + 1), Close := fun s => s + 1 }

/-- A stream whose read fails. -/
def brokenStream : ReadCloser Nat :=
  { copy := fun s => (some (.foreign "unexpected EOF"), s + 1), Close := fun s => s + 1 }

/-- The adapter of scenario A: no login block, one search mode "search", three valid
results for a search probe, none for the empty-result query, a ratio; downloads fail. -/
def scenarioARunner : Runner Nat where
  definition := { Login := { IsEmpty := true } }
  Info := { ID := "example", Link := "http://x/" }
  Capabilities := { SearchModes := [{ Key := "search" }] }
  checkHasConfig := fun s => (none, s + 1)
  login := fun s => (none, s + 1)
  Search := fun q s =>
    if q.Series = "" then (([goodItem, goodItem, goodItem], none), s + 1)
    else (([], none), s + 1)
  Download := fun _ s => (.error (.foreign "download failed"), s + 1)
  Ratio := fun s => (("1.5", none), s + 1)

/-- The tester of scenario A, without the download check. -/
def scenarioATester : Tester Nat :=
  { Runner := scenarioARunner, Opts := { Download := false }, Output := none }

/-- The tester of scenario A with the download check: every download fails. -/
def downloadingTester : Tester Nat :=
  { Runner := scenarioARunner, Opts := { Download := true }, Output := none }

/-- The adapter of scenario A, except that every download succeeds and its stream is read
to the end. -/
def okStreamRunner : Runner Nat :=
  { scenarioARunner with Download := fun _ s => (.ok okStream, s + 1) }

/-- A tester with the download check over `okStreamRunner`. -/
def okStreamTester : Tester Nat :=
  { Runner := okStreamRunner, Opts := { Download := true }, Output := none }

/-- The adapter of scenario A, except that every download succeeds and reading its stream
fails. -/
def brokenStreamRunner : Runner Nat :=
  { scenarioARunner with Download := fun _ s => (.ok brokenStream, s + 1) }

/-- A tester with the download check over `brokenStreamRunner`. -/
def brokenStreamTester : Tester Nat :=
  { Runner := brokenStreamRunner, Opts := { Download := true }, Output := none }

/-- The adapter of scenario B: a login block, a config check that passes, and a login that
fails with an authentication error. -/
def scenarioBRunner : Runner Nat :=
  { scenarioARunner with
    definition := { Login := { IsEmpty := false } }
    login := fun s => (some (.foreign "authentication failed"), s + 1) }

/-- The tester of scenario B. -/
def scenarioBTester : Tester Nat :=
  { Runner := scenarioBRunner, Opts := { Download := false }, Output := none }

/-- The adapter of scenario C: a login block whose steps pass, two search modes, and a
search that returns one result of size zero. -/
def scenarioCRunner : Runner Nat :=
  { scenarioARunner with
    definition := { Login := { IsEmpty := false } }
    Capabilities := { SearchModes := [{ Key := "search" }, { Key := "tv-search" }] }
    Search := fun _ s => (([zeroSizeItem], none), s + 1) }

/-- The tester of scenario C. -/
def scenarioCTester : Tester Nat :=
  { Runner := scenarioCRunner, Opts := { Download := false }, Output := none }

/-- The adapter of scenario A, except that it returns three results for every query, the
empty-result query included. -/
def chattyRunner : Runner Nat :=
  { scenarioARunner with
    Search := fun _ s => (([goodItem, goodItem, goodItem], none), s + 1) }

/-- A tester over `chattyRunner`. -/
def chattyTester : Tester Nat :=
  { Runner := chattyRunner, Opts := { Download := false }, Output := none }

/-- Whether an event is a summary line of `Test`. -/
def Event.isSummary : Event → Bool
  | .fprintf _ format _ =>
    format = "→ Indexer %s %s with %s\n" || format = "→ Indexer %s is %s\n"
  | _ => false

/-- The summary lines of a run. -/
def summaryLines (evs : List Event) : List Event := evs.filter Event.isSummary

/-- Every step of a list succeeds: each step function, run from the world the previous
step left, returns nil. -/
def Tester.stepsSucceed {σ : Type} (E : Env σ) (t : Tester σ) : List Step → σ → Bool
  | [], _ => true
  | st :: rest, s =>
    match (t.stepFn E st).ret s with
    | none => Tester.stepsSucceed E t rest ((t.stepFn E st).after s)
    | some _ => false

/-- The adapter of scenario A with a login block whose config check and login pass. -/
def loginOkRunner : Runner Nat :=
  { scenarioARunner with definition := { Login := { IsEmpty := false } } }

/-- A tester over `loginOkRunner`. -/
def loginOkTester : Tester Nat :=
  { Runner := loginOkRunner, Opts := { Download := false }, Output := none }

/-- The invalid-result error for row `k` and an item with a missing field: it names the
first missing field in the order title, size, link, site. -/
def invalidResultError (k : Nat) (item : ResultItem) : GoError :=
  if item.Title = "" then .errorf ("Result row " ++ toString k ++ " has empty title")
  else if ¬ 0 < item.Size then .errorf ("Result row " ++ toString k ++ " has zero size")
  else if item.Link = "" then .errorf ("Result row " ++ toString k ++ " has blank link")
  else .errorf ("Result row " ++ toString k ++ " has blank site")

/-- The outcome of validating the required fields of a list whose first item has the
0-based index `idx`: nil when every item has its required fields, otherwise the
invalid-result error of the first item that has not, with its 1-based row. It depends on
the list alone. -/
def firstInvalidError : Nat → List ResultItem → Option GoError
  | _, [] => none
  | idx, item :: rest =>
    if item.fieldsValid then firstInvalidError (idx + 1) rest
    else some (invalidResultError (idx + 1) item)

/-- The same tester over the same adapter, except for what `Ratio` does. -/
def Tester.withRatio {σ : Type} (t : Tester σ) (ratio : σ → (String × Option GoError) × σ) :
    Tester σ :=
  { t with Runner := { t.Runner with Ratio := ratio } }

/-- A result whose link is empty. -/
def noLinkItem : ResultItem := { Title := "l", Size := 3, Link := "", Site := "s" }

/-- A result whose site is empty. -/
def noSiteItem : ResultItem := { Title := "t", Size := 3, Link := "http://x/4", Site := "" }

/-- Where the tester stands with the download stream of the result it is checking: no
stream is open, a stream was returned by `Download` and is open, or the open stream has
been read (with or without error) and is still to be closed. -/
inductive StreamState where
  | idle
  | opened (link : String)
  | drained (link : String)
  deriving DecidableEq

/-- The discipline of download streams, followed along the events of a run: a successful
`Download` is made only when no stream is open and opens one; the open stream is read
once; it is closed after it was read, and only then. The result is the state at the end,
or nothing when an event breaks the discipline. Other events do not concern streams. -/
def streamProtocol : StreamState → List Event → Option StreamState
  | st, [] => some st
  | .idle, .Download link none :: rest => streamProtocol (.opened link) rest
  | .idle, .Download _ (some _) :: rest => streamProtocol .idle rest
  | _, .Download _ _ :: _ => none
  | .opened link, .copy link2 _ :: rest =>
    if link = link2 then streamProtocol (.drained link) rest else none
  | _, .copy _ _ :: _ => none
  | .drained link, .close link2 :: rest =>
    if link = link2 then streamProtocol .idle rest else none
  | _, .close _ :: _ => none
  | st, _ :: rest => streamProtocol st rest

/-- The links of the `Download` calls of a run, in order. -/
def downloadLinks (evs : List Event) : List String :=
  evs.filterMap fun ev =>
    match ev with
    | .Download link _ => some link
    | _ => none

/-- Whether the torrent check fetches the link of a result: the link parses and its scheme
is not "magnet". -/
def Env.fetches {σ : Type} (E : Env σ) (r : ResultItem) : Bool :=
  match E.urlParse r.Link with
  | .ok u => decide (u.Scheme ≠ "magnet")
  | .error _ => false

/-- The adapter of scenario A, except that every download fails with an error of the
adapter whose message reads like the error of the second link check of the validator. -/
def misleadingRunner : Runner Nat :=
  { scenarioARunner with
    Download := fun _ s => (.error (.foreign "Result row 1 has empty link"), s + 1) }

/-- A tester with the download check over `misleadingRunner`. -/
def misleadingTester : Tester Nat :=
  { Runner := misleadingRunner, Opts := { Download := true }, Output := none }

/-! ## The effect algebra -/

section ActLemmas

variable {σ α β : Type}

@[simp] theorem Act.run_pure (a : α) (s : σ) : (Pure.pure a : Act σ α).run s = (a, s, []) :=
  rfl

@[simp] theorem Act.ret_pure (a : α) (s : σ) : (Pure.pure a : Act σ α).ret s = a := rfl

@[simp] theorem Act.after_pure (a : α) (s : σ) : (Pure.pure a : Act σ α).after s = s := rfl

@[simp] theorem Act.events_pure (a : α) (s : σ) : (Pure.pure a : Act σ α).events s = [] :=
  rfl

@[simp] theorem Act.ret_bind (m : Act σ α) (f : α → Act σ β) (s : σ) :
    (m >>= f).ret s = (f (m.ret s)).ret (m.after s) := rfl

@[simp] theorem Act.after_bind (m : Act σ α) (f : α → Act σ β) (s : σ) :
    (m >>= f).after s = (f (m.ret s)).after (m.after s) := rfl

@[simp] theorem Act.events_bind (m : Act σ α) (f : α → Act σ β) (s : σ) :
    (m >>= f).events s = m.events s ++ (f (m.ret s)).events (m.after s) := rfl

theorem Act.run_eq (m : Act σ α) (s : σ) : m.run s = (m.ret s, m.after s, m.events s) := rfl

end ActLemmas


section Primitives

variable {σ : Type}

@[simp] theorem timeNow_ret (E : Env σ) (s : σ) : (timeNow E).ret s = E.timeNow s := rfl
@[simp] theorem timeNow_after (E : Env σ) (s : σ) : (timeNow E).after s = s := rfl
@[simp] theorem timeNow_events (E : Env σ) (s : σ) : (timeNow E).events s = [] := rfl

@[simp] theorem printf_after (t : Tester σ) (format : String) (args : List String) (s : σ) :
    (t.printf format args).after s = s := rfl
@[simp] theorem printf_events (t : Tester σ) (format : String) (args : List String) (s : σ) :
    (t.printf format args).events s = [.fprintf t.writer format args] := by
  cases h : t.Output <;> simp [Tester.printf, Tester.writer, h, Act.events, Act.run, emit]

@[simp] theorem logDebugf_after (format : String) (args : List String) (s : σ) :
    (logDebugf format args : Act σ Unit).after s = s := rfl
@[simp] theorem logDebugf_events (format : String) (args : List String) (s : σ) :
    (logDebugf format args : Act σ Unit).events s = [.debugf format args] := rfl

@[simp] theorem callCheckHasConfig_ret (r : Runner σ) (s : σ) :
    r.callCheckHasConfig.ret s = (r.checkHasConfig s).1 := rfl
@[simp] theorem callCheckHasConfig_after (r : Runner σ) (s : σ) :
    r.callCheckHasConfig.after s = (r.checkHasConfig s).2 := rfl
@[simp] theorem callCheckHasConfig_events (r : Runner σ) (s : σ) :
    r.callCheckHasConfig.events s = [.checkHasConfig (r.checkHasConfig s).1] := rfl

@[simp] theorem callLogin_ret (r : Runner σ) (s : σ) :
    r.callLogin.ret s = (r.login s).1 := rfl
@[simp] theorem callLogin_after (r : Runner σ) (s : σ) :
    r.callLogin.after s = (r.login s).2 := rfl
@[simp] theorem callLogin_events (r : Runner σ) (s : σ) :
    r.callLogin.events s = [.login (r.login s).1] := rfl

@[simp] theorem callSearch_ret (r : Runner σ) (q : Query) (s : σ) :
    (r.callSearch q).ret s = (r.Search q s).1 := rfl
@[simp] theorem callSearch_after (r : Runner σ) (q : Query) (s : σ) :
    (r.callSearch q).after s = (r.Search q s).2 := rfl
@[simp] theorem callSearch_events (r : Runner σ) (q : Query) (s : σ) :
    (r.callSearch q).events s = [.Search q (r.Search q s).1.1 (r.Search q s).1.2] := rfl

@[simp] theorem callDownload_ret (r : Runner σ) (link : String) (s : σ) :
    (r.callDownload link).ret s = (r.Download link s).1 := rfl
@[simp] theorem callDownload_after (r : Runner σ) (link : String) (s : σ) :
    (r.callDownload link).after s = (r.Download link s).2 := rfl
@[simp] theorem callDownload_events (r : Runner σ) (link : String) (s : σ) :
    (r.callDownload link).events s =
      [.Download link (match (r.Download link s).1 with
        | .error err => some err
        | .ok _ => none)] := rfl

@[simp] theorem callRatio_ret (r : Runner σ) (s : σ) : r.callRatio.ret s = (r.Ratio s).1 := rfl
@[simp] theorem callRatio_after (r : Runner σ) (s : σ) :
    r.callRatio.after s = (r.Ratio s).2 := rfl
@[simp] theorem callRatio_events (r : Runner σ) (s : σ) :
    r.callRatio.events s = [.Ratio (r.Ratio s).1.1 (r.Ratio s).1.2] := rfl

@[simp] theorem ioCopyDiscard_ret (link : String) (rc : ReadCloser σ) (s : σ) :
    (ioCopyDiscard link rc).ret s = (rc.copy s).1 := rfl
@[simp] theorem ioCopyDiscard_after (link : String) (rc : ReadCloser σ) (s : σ) :
    (ioCopyDiscard link rc).after s = (rc.copy s).2 := rfl
@[simp] theorem ioCopyDiscard_events (link : String) (rc : ReadCloser σ) (s : σ) :
    (ioCopyDiscard link rc).events s = [.copy link (rc.copy s).1] := rfl

@[simp] theorem rcClose_after (link : String) (rc : ReadCloser σ) (s : σ) :
    (rcClose link rc).after s = rc.Close s := rfl
@[simp] theorem rcClose_events (link : String) (rc : ReadCloser σ) (s : σ) :
    (rcClose link rc).events s = [.close link] := rfl

theorem printfWithResult_ret (E : Env σ) (t : Tester σ) (format : String)
    (args : List String) (f : Act σ (Option GoError)) (s : σ) :
    (t.printfWithResult E format args f).ret s = f.ret s := by
  simp only [Tester.printfWithResult, Act.ret_bind, timeNow_after, printf_after]
  cases f.ret s <;> rfl

theorem printfWithResult_after (E : Env σ) (t : Tester σ) (format : String)
    (args : List String) (f : Act σ (Option GoError)) (s : σ) :
    (t.printfWithResult E format args f).after s = f.after s := by
  simp only [Tester.printfWithResult, Act.after_bind, Act.ret_bind, timeNow_after, printf_after]
  cases f.ret s <;> rfl

theorem printfWithResult_events (E : Env σ) (t : Tester σ) (format : String)
    (args : List String) (f : Act σ (Option GoError)) (s : σ) :
    (t.printfWithResult E format args f).events s =
      .fprintf t.writer (format ++ " ") args :: f.events s ++
        [t.statusEvent E (f.ret s) (E.timeNow s) (E.timeNow (f.after s))] := by
  simp only [Tester.printfWithResult, Act.events_bind, Act.after_bind, Act.ret_bind,
    timeNow_after, printf_after, timeNow_events, printf_events, timeNow_ret, Tester.statusEvent]
  cases f.ret s <;> simp

end Primitives

section Validator

variable {σ : Type}

/-- One iteration of the loop of `assertValidResults` on an item whose fields are
present: the torrent check when the download option is set, then the rest. -/
theorem assertValidResultsFrom_cons_valid (E : Env σ) (t : Tester σ) (idx : Nat)
    (result : ResultItem) (rest : List ResultItem) (hv : result.fieldsValid) :
    t.assertValidResultsFrom E idx (result :: rest) =
      if t.Opts.Download then
        (t.assertValidTorrent E result >>= fun r =>
          match r with
          | some err => pure (some err)
          | none => t.assertValidResultsFrom E (idx + 1) rest)
      else t.assertValidResultsFrom E (idx + 1) rest := by
  obtain ⟨h1, h2, h3, h4⟩ := hv
  have h2 : result.Size ≠ 0 := Nat.pos_iff_ne_zero.mp h2
  rw [Tester.assertValidResultsFrom]
  simp only [h1, h2, h3, h4, if_false]

/-- An item that passes the loop has its required fields. -/
theorem fieldsValid_of_assertValidResultsFrom_cons (E : Env σ) (t : Tester σ) (idx : Nat)
    (result : ResultItem) (rest : List ResultItem) (s : σ)
    (h : (t.assertValidResultsFrom E idx (result :: rest)).ret s = none) :
    result.fieldsValid := by
  rw [Tester.assertValidResultsFrom] at h
  refine ⟨?_, ?_, ?_, ?_⟩
  · intro h1
    simp [h1] at h
  · by_contra h2
    have h2 : result.Size = 0 := by omega
    by_cases h1 : result.Title = "" <;> simp [h1, h2] at h
  · intro h3
    by_cases h1 : result.Title = "" <;> by_cases h2 : result.Size = 0 <;>
      simp [h1, h2, h3] at h
  · intro h4
    by_cases h1 : result.Title = "" <;> by_cases h2 : result.Size = 0 <;>
      by_cases h3 : result.Link = "" <;> simp [h1, h2, h3, h4] at h

/-- The loop over `pre ++ rest`, when the items of `pre` pass: it continues with `rest`
at the index after `pre`, from the state `pre` left. -/
theorem assertValidResultsFrom_append (E : Env σ) (t : Tester σ) (pre rest : List ResultItem) :
    ∀ (idx : Nat) (s : σ), (t.assertValidResultsFrom E idx pre).ret s = none →
      (t.assertValidResultsFrom E idx (pre ++ rest)).run s =
        ((t.assertValidResultsFrom E (idx + pre.length) rest).ret
            ((t.assertValidResultsFrom E idx pre).after s),
         (t.assertValidResultsFrom E (idx + pre.length) rest).after
            ((t.assertValidResultsFrom E idx pre).after s),
         (t.assertValidResultsFrom E idx pre).events s ++
           (t.assertValidResultsFrom E (idx + pre.length) rest).events
            ((t.assertValidResultsFrom E idx pre).after s)) := by
  induction pre with
  | nil =>
    intro idx s _
    simp [Tester.assertValidResultsFrom, Act.run_eq]
  | cons x xs ih =>
    intro idx s h
    have hv := fieldsValid_of_assertValidResultsFrom_cons E t idx x xs s h
    rw [List.cons_append, assertValidResultsFrom_cons_valid E t idx x (xs ++ rest) hv]
    rw [assertValidResultsFrom_cons_valid E t idx x xs hv] at h ⊢
    have hlen : idx + (x :: xs).length = idx + 1 + xs.length := by
      simp [List.length_cons]; omega
    rw [hlen]
    cases hd : t.Opts.Download with
    | false =>
      simp only [hd, Bool.false_eq_true, if_false] at h ⊢
      exact ih (idx + 1) s h
    | true =>
      simp only [hd, if_true, Act.ret_bind] at h ⊢
      cases ht : (t.assertValidTorrent E x).ret s with
      | some err => simp [ht] at h
      | none =>
        simp only [ht] at h
        have := ih (idx + 1) ((t.assertValidTorrent E x).after s) h
        simp only [Act.run_eq, Prod.mk.injEq] at this
        obtain ⟨e1, e2, e3⟩ := this
        simp only [Act.run_eq, Act.ret_bind, Act.after_bind, Act.events_bind, ht, e1, e2, e3,
          List.append_assoc]
end Validator

section ValidatorClaims

variable {σ : Type}

/-- Without the download check the loop over items that all have their required fields
returns nil, leaves the world as it was and produces no event. -/
theorem assertValidResultsFrom_valid_no_download (E : Env σ) (t : Tester σ)
    (hd : t.Opts.Download = false) (results : List ResultItem) :
    ∀ (idx : Nat) (s : σ), (∀ r ∈ results, r.fieldsValid) →
      (t.assertValidResultsFrom E idx results).run s = (none, s, []) := by
  induction results with
  | nil =>
    intro idx s _
    rfl
  | cons x xs ih =>
    intro idx s hv
    rw [assertValidResultsFrom_cons_valid E t idx x xs (hv x (List.mem_cons_self x xs))]
    simp only [hd, Bool.false_eq_true, if_false]
    exact ih (idx + 1) s (fun r hr => hv r (List.mem_cons_of_mem x hr))

/-- The loop on an item with a missing field returns an invalid-result error for that
item's row. -/
theorem assertValidResultsFrom_cons_invalid (E : Env σ) (t : Tester σ) (idx : Nat)
    (item : ResultItem) (rest : List ResultItem) (s : σ)
    (hbad : item.Title = "" ∨ item.Size = 0 ∨ item.Link = "" ∨ item.Site = "") :
    ∃ e, (t.assertValidResultsFrom E idx (item :: rest)).ret s = some e ∧
      IsInvalidResult (idx + 1) e := by
  rw [Tester.assertValidResultsFrom]
  by_cases h1 : item.Title = ""
  · exact ⟨_, by simp [h1], Or.inl rfl⟩
  by_cases h2 : item.Size = 0
  · exact ⟨_, by simp [h1, h2], Or.inr (Or.inl rfl)⟩
  by_cases h3 : item.Link = ""
  · exact ⟨_, by simp [h1, h2, h3], Or.inr (Or.inr (Or.inl rfl))⟩
  by_cases h4 : item.Site = ""
  · exact ⟨_, by simp [h1, h2, h3, h4], Or.inr (Or.inr (Or.inr (Or.inl rfl)))⟩
  · rcases hbad with h | h | h | h <;> contradiction

/-- C1 (as amended): for either setting of the download option, if the items before an
item pass validation (their required fields are present and, with the download check on,
their torrent checks succeed) and the item has an empty title, a zero size, an empty link
or an empty site, then `assertValidResults` returns an invalid-result error
("Result row k has ...") whose row number k is that item's 1-based position. -/
theorem assertValidResults_invalid_row (E : Env σ) (t : Tester σ) (s : σ)
    (pre : List ResultItem) (item : ResultItem) (post : List ResultItem)
    (hpre : (t.assertValidResults E pre).ret s = none)
    (hbad : item.Title = "" ∨ item.Size = 0 ∨ item.Link = "" ∨ item.Site = "") :
    ∃ e, (t.assertValidResults E (pre ++ item :: post)).ret s = some e ∧
      IsInvalidResult (pre.length + 1) e := by
  have happ := assertValidResultsFrom_append E t pre (item :: post) 0 s hpre
  obtain ⟨e, he, hk⟩ := assertValidResultsFrom_cons_invalid E t (0 + pre.length) item post
    ((t.assertValidResultsFrom E 0 pre).after s) hbad
  refine ⟨e, ?_, ?_⟩
  · have hret : (t.assertValidResultsFrom E 0 (pre ++ item :: post)).ret s =
        (t.assertValidResultsFrom E (0 + pre.length) (item :: post)).ret
          ((t.assertValidResultsFrom E 0 pre).after s) := by
      rw [Act.ret, happ]
    rw [Tester.assertValidResults, hret, he]
  · simpa using hk

/-- C1, witness: with the download check on, a magnet item followed by an item without a
title. -/
theorem assertValidResults_invalid_row_witness :
    ∃ e, (downloadingTester.assertValidResults exampleEnv
        ([magnetItem] ++ noTitleItem :: [goodItem])).ret 0 = some e ∧
      IsInvalidResult ([magnetItem].length + 1) e :=
  assertValidResults_invalid_row exampleEnv downloadingTester 0 [magnetItem] noTitleItem
    [goodItem] (by decide) (Or.inl (by decide))

/-- C1, counterexample to the claim as stated: with the download check on, the list holds
an item without a title at position 2, yet `assertValidResults` returns the download error
of the item at position 1, which is no invalid-result error of any row. -/
theorem assertValidResults_invalid_row_counterexample :
    [goodItem, noTitleItem][1]? = some noTitleItem ∧ noTitleItem.Title = "" ∧
      downloadingTester.Opts.Download = true ∧
      (downloadingTester.assertValidResults exampleEnv [goodItem, noTitleItem]).ret 0 =
        some (.foreign "download failed") ∧
      ∀ k, ¬ IsInvalidResult k (.foreign "download failed") := by
  refine ⟨by decide, by decide, by decide, by decide, ?_⟩
  intro k h
  rcases h with h | h | h | h | h <;> exact GoError.noConfusion h

/-- C2: without the download check, `assertValidResults` returns nil on every list whose
items all have a non-empty title, link and site and a size greater than zero; the empty
list is one of them. -/
theorem assertValidResults_valid_no_download (E : Env σ) (t : Tester σ) (s : σ)
    (results : List ResultItem) (hd : t.Opts.Download = false)
    (hv : ∀ r ∈ results, r.Title ≠ "" ∧ r.Link ≠ "" ∧ r.Site ≠ "" ∧ 0 < r.Size) :
    (t.assertValidResults E results).ret s = none ∧
      (t.assertValidResults E []).ret s = none := by
  refine ⟨?_, rfl⟩
  have h := assertValidResultsFrom_valid_no_download E t hd results 0 s
    (fun r hr => ⟨(hv r hr).1, (hv r hr).2.2.2, (hv r hr).2.1, (hv r hr).2.2.1⟩)
  rw [Tester.assertValidResults, Act.ret, h]

/-- C2, witness: three valid results, one of them a magnet link. -/
theorem assertValidResults_valid_no_download_witness :
    (scenarioATester.assertValidResults exampleEnv [goodItem, magnetItem, goodItem]).ret 0
        = none ∧
      (scenarioATester.assertValidResults exampleEnv []).ret 0 = none :=
  assertValidResults_valid_no_download exampleEnv scenarioATester 0
    [goodItem, magnetItem, goodItem] rfl (by decide)

end ValidatorClaims

section Torrent

variable {σ : Type}

/-- The torrent check of a link that does not parse: the parse error, nothing done. -/
theorem assertValidTorrent_parse_error (E : Env σ) (t : Tester σ) (result : ResultItem)
    (s : σ) (err : GoError) (hparse : E.urlParse result.Link = .error err) :
    (t.assertValidTorrent E result).run s = (some err, s, []) := by
  simp only [Tester.assertValidTorrent, hparse]
  rfl

/-- The torrent check of a magnet link: nil, nothing done. -/
theorem assertValidTorrent_magnet (E : Env σ) (t : Tester σ) (result : ResultItem)
    (s : σ) (u : URL) (hparse : E.urlParse result.Link = .ok u) (hmag : u.Scheme = "magnet") :
    (t.assertValidTorrent E result).run s = (none, s, []) := by
  simp only [Tester.assertValidTorrent, hparse, hmag, if_true]
  rfl

/-- The torrent check of a link that is not a magnet link, when the download fails. -/
theorem assertValidTorrent_download_error (E : Env σ) (t : Tester σ) (result : ResultItem)
    (s : σ) (u : URL) (hparse : E.urlParse result.Link = .ok u) (hmag : u.Scheme ≠ "magnet")
    (err : GoError) (hdl : (t.Runner.Download result.Link s).1 = .error err) :
    (t.assertValidTorrent E result).run s =
      (some err, (t.Runner.Download result.Link s).2, [.Download result.Link (some err)]) := by
  simp only [Tester.assertValidTorrent, hparse, hmag, if_false, Act.run_eq, Act.ret_bind,
    Act.after_bind, Act.events_bind, callDownload_ret, callDownload_after,
    callDownload_events, hdl]
  rfl

/-- The torrent check of a link that is not a magnet link, when the download succeeds:
the stream is read to the end, then closed, and the error of the read is returned. -/
theorem assertValidTorrent_download_ok (E : Env σ) (t : Tester σ) (result : ResultItem)
    (s : σ) (u : URL) (hparse : E.urlParse result.Link = .ok u) (hmag : u.Scheme ≠ "magnet")
    (rc : ReadCloser σ) (hdl : (t.Runner.Download result.Link s).1 = .ok rc) :
    (t.assertValidTorrent E result).run s =
      ((rc.copy (t.Runner.Download result.Link s).2).1,
       rc.Close (rc.copy (t.Runner.Download result.Link s).2).2,
       [.Download result.Link none, .copy result.Link
          (rc.copy (t.Runner.Download result.Link s).2).1, .close result.Link]) := by
  simp only [Tester.assertValidTorrent, hparse, hmag, if_false, Act.run_eq, Act.ret_bind,
    Act.after_bind, Act.events_bind, callDownload_ret, callDownload_after,
    callDownload_events, hdl]
  rfl

/-- With the download check, the loop over valid items whose links are all magnet links
returns nil, leaves the world as it was and produces no event. -/
theorem assertValidResultsFrom_all_magnet (E : Env σ) (t : Tester σ)
    (results : List ResultItem) :
    ∀ (idx : Nat) (s : σ),
      (∀ r ∈ results, r.fieldsValid ∧ ∃ u, E.urlParse r.Link = .ok u ∧ u.Scheme = "magnet") →
      (t.assertValidResultsFrom E idx results).run s = (none, s, []) := by
  induction results with
  | nil =>
    intro idx s _
    rfl
  | cons x xs ih =>
    intro idx s hall
    obtain ⟨hv, u, hparse, hmag⟩ := hall x (List.mem_cons_self x xs)
    have htor := assertValidTorrent_magnet E t x s u hparse hmag
    have hrest := ih (idx + 1) s (fun r hr => hall r (List.mem_cons_of_mem x hr))
    simp only [Act.run_eq, Prod.mk.injEq] at htor hrest
    rw [assertValidResultsFrom_cons_valid E t idx x xs hv]
    cases hd : t.Opts.Download with
    | false =>
      simp only [Bool.false_eq_true, if_false, Act.run_eq, hrest.1, hrest.2.1, hrest.2.2]
    | true =>
      simp only [if_true, Act.run_eq, Act.ret_bind, Act.after_bind, Act.events_bind,
        htor.1, htor.2.1, htor.2.2, hrest.1, hrest.2.1, hrest.2.2, List.append_nil]

/-- C6: for a result whose link has the scheme "magnet", `assertValidTorrent` returns nil
and produces no event at all, so it makes no call to `Runner.Download`; hence, whatever
the download option and in particular when it is on, `assertValidResults` on a list of
items with valid fields whose links are all magnet links returns nil and produces no
event: no `Download` call is made. -/
theorem magnet_link_never_downloaded (E : Env σ) (t : Tester σ) (s : σ)
    (result : ResultItem) (u : URL) (results : List ResultItem)
    (hparse : E.urlParse result.Link = .ok u) (hmag : u.Scheme = "magnet")
    (hall : ∀ r ∈ results,
      r.fieldsValid ∧ ∃ v, E.urlParse r.Link = .ok v ∧ v.Scheme = "magnet") :
    ((t.assertValidTorrent E result).ret s = none ∧
      (t.assertValidTorrent E result).events s = [] ∧
      (t.assertValidTorrent E result).after s = s) ∧
    ((t.assertValidResults E results).ret s = none ∧
      (t.assertValidResults E results).events s = [] ∧
      (t.assertValidResults E results).after s = s) := by
  have h1 := assertValidTorrent_magnet E t result s u hparse hmag
  have h2 := assertValidResultsFrom_all_magnet E t results 0 s hall
  simp only [Act.run_eq, Prod.mk.injEq] at h1 h2
  exact ⟨⟨h1.1, h1.2.2, h1.2.1⟩, ⟨h2.1, h2.2.2, h2.2.1⟩⟩

/-- C6, witness: a tester with the download check whose every download would fail, on
magnet items. -/
theorem magnet_link_never_downloaded_witness :
    ((downloadingTester.assertValidTorrent exampleEnv magnetItem).ret 0 = none ∧
      (downloadingTester.assertValidTorrent exampleEnv magnetItem).events 0 = [] ∧
      (downloadingTester.assertValidTorrent exampleEnv magnetItem).after 0 = 0) ∧
    ((downloadingTester.assertValidResults exampleEnv [magnetItem, magnetItem]).ret 0 = none ∧
      (downloadingTester.assertValidResults exampleEnv [magnetItem, magnetItem]).events 0 = [] ∧
      (downloadingTester.assertValidResults exampleEnv [magnetItem, magnetItem]).after 0 = 0) :=
  magnet_link_never_downloaded exampleEnv downloadingTester 0 magnetItem
    { Scheme := "magnet" } [magnetItem, magnetItem] rfl rfl
    (by
      intro r hr
      have hr : r = magnetItem := by simpa using hr
      subst hr
      exact ⟨by decide, { Scheme := "magnet" }, rfl, rfl⟩)

/-- C7: for a result whose link parses and has a scheme other than "magnet": if
`Runner.Download` returns an error, `assertValidTorrent` returns that error; if the
download succeeds and reading the stream to the end fails, it returns the error of the
read; it returns nil exactly when the download succeeds and the stream is read to its end
without error; and with the download check on, `assertValidResults` on a list in which the
items before this one pass and this one has its required fields returns the error of this
item's torrent check. -/
theorem non_magnet_download_failure (E : Env σ) (t : Tester σ) (s : σ)
    (result : ResultItem) (u : URL)
    (hparse : E.urlParse result.Link = .ok u) (hmag : u.Scheme ≠ "magnet") :
    (∀ e, (t.Runner.Download result.Link s).1 = .error e →
      (t.assertValidTorrent E result).ret s = some e) ∧
    (∀ rc e, (t.Runner.Download result.Link s).1 = .ok rc →
      (rc.copy (t.Runner.Download result.Link s).2).1 = some e →
      (t.assertValidTorrent E result).ret s = some e) ∧
    ((t.assertValidTorrent E result).ret s = none ↔
      ∃ rc, (t.Runner.Download result.Link s).1 = .ok rc ∧
        (rc.copy (t.Runner.Download result.Link s).2).1 = none) ∧
    (∀ (pre post : List ResultItem) (s0 : σ) (e : GoError),
      t.Opts.Download = true → result.fieldsValid →
      (t.assertValidResults E pre).ret s0 = none →
      (t.assertValidResults E pre).after s0 = s →
      (t.assertValidTorrent E result).ret s = some e →
      (t.assertValidResults E (pre ++ result :: post)).ret s0 = some e) := by
  refine ⟨?_, ?_, ?_, ?_⟩
  · intro e hdl
    rw [Act.ret, assertValidTorrent_download_error E t result s u hparse hmag e hdl]
  · intro rc e hdl hcopy
    rw [Act.ret, assertValidTorrent_download_ok E t result s u hparse hmag rc hdl]
    exact hcopy
  · cases hdl : (t.Runner.Download result.Link s).1 with
    | error err =>
      rw [Act.ret, assertValidTorrent_download_error E t result s u hparse hmag err hdl]
      simp
    | ok rc =>
      rw [Act.ret, assertValidTorrent_download_ok E t result s u hparse hmag rc hdl]
      simp
  · intro pre post s0 e hd hv hpre hs htor
    have happ := assertValidResultsFrom_append E t pre (result :: post) 0 s0 hpre
    have hs : (t.assertValidResultsFrom E 0 pre).after s0 = s := hs
    rw [Tester.assertValidResults, Act.ret, happ, hs,
      assertValidResultsFrom_cons_valid E t (0 + pre.length) result post hv]
    simp only [hd, if_true, Act.ret_bind, htor]
    rfl

/-- C7, witness: a failing download, a stream that cannot be read to its end, and a
list in which the item with the failing download follows a magnet item. -/
theorem non_magnet_download_failure_witness :
    (downloadingTester.assertValidTorrent exampleEnv goodItem).ret 0 =
        some (.foreign "download failed") ∧
      (brokenStreamTester.assertValidTorrent exampleEnv goodItem).ret 0 =
        some (.foreign "unexpected EOF") ∧
      (okStreamTester.assertValidTorrent exampleEnv goodItem).ret 0 = none ∧
      (downloadingTester.assertValidResults exampleEnv
        ([magnetItem] ++ goodItem :: [noTitleItem])).ret 0 =
        some (.foreign "download failed") :=
  ⟨(non_magnet_download_failure exampleEnv downloadingTester 0 goodItem { Scheme := "http" }
      rfl (by decide)).1 _ rfl,
   (non_magnet_download_failure exampleEnv brokenStreamTester 0 goodItem { Scheme := "http" }
      rfl (by decide)).2.1 brokenStream _ rfl rfl,
   (non_magnet_download_failure exampleEnv okStreamTester 0 goodItem { Scheme := "http" }
      rfl (by decide)).2.2.1.mpr ⟨okStream, rfl, rfl⟩,
   (non_magnet_download_failure exampleEnv downloadingTester 0 goodItem { Scheme := "http" }
      rfl (by decide)).2.2.2 [magnetItem] [noTitleItem] 0 _ rfl (by decide)
      (by decide) (by decide) (by decide)⟩

end Torrent

section Sequencer

variable {σ : Type}

theorem runStep_ret (E : Env σ) (t : Tester σ) (st : Step) (s : σ) :
    (t.runStep E st).ret s = (t.stepFn E st).ret s :=
  printfWithResult_ret E t st.format st.args (t.stepFn E st) s

theorem runStep_after (E : Env σ) (t : Tester σ) (st : Step) (s : σ) :
    (t.runStep E st).after s = (t.stepFn E st).after s :=
  printfWithResult_after E t st.format st.args (t.stepFn E st) s

theorem runStep_events (E : Env σ) (t : Tester σ) (st : Step) (s : σ) :
    (t.runStep E st).events s =
      t.labelEvent st :: (t.stepFn E st).events s ++
        [t.statusEvent E ((t.stepFn E st).ret s) (E.timeNow s)
          (E.timeNow ((t.stepFn E st).after s))] :=
  printfWithResult_events E t st.format st.args (t.stepFn E st) s

/-- Running a step list whose first step fails stops there. -/
theorem runSteps_cons_fail (E : Env σ) (t : Tester σ) (st : Step) (rest : List Step) (s : σ)
    (e : GoError) (h : (t.stepFn E st).ret s = some e) :
    (t.runSteps E (st :: rest)).run s =
      (some e, (t.stepFn E st).after s, (t.runStep E st).events s) := by
  have hr : (t.runStep E st).ret s = some e := by rw [runStep_ret, h]
  simp only [Tester.runSteps, Act.run_eq, Act.ret_bind, Act.after_bind, Act.events_bind, hr,
    Act.ret_pure, Act.after_pure, Act.events_pure, List.append_nil, runStep_after]

/-- Running a step list whose first step succeeds goes on with the rest. -/
theorem runSteps_cons_ok (E : Env σ) (t : Tester σ) (st : Step) (rest : List Step) (s : σ)
    (h : (t.stepFn E st).ret s = none) :
    (t.runSteps E (st :: rest)).run s =
      ((t.runSteps E rest).ret ((t.stepFn E st).after s),
       (t.runSteps E rest).after ((t.stepFn E st).after s),
       (t.runStep E st).events s ++ (t.runSteps E rest).events ((t.stepFn E st).after s)) := by
  have hr : (t.runStep E st).ret s = none := by rw [runStep_ret, h]
  simp only [Tester.runSteps, Act.run_eq, Act.ret_bind, Act.after_bind, Act.events_bind, hr,
    runStep_after]

/-- The first step of a list of steps that all succeed succeeds. -/
theorem stepFn_ret_of_runSteps_cons (E : Env σ) (t : Tester σ) (st : Step) (rest : List Step)
    (s : σ) (h : (t.runSteps E (st :: rest)).ret s = none) :
    (t.stepFn E st).ret s = none := by
  cases hst : (t.stepFn E st).ret s with
  | none => rfl
  | some e =>
    rw [Act.ret, runSteps_cons_fail E t st rest s e hst] at h
    exact absurd h (by simp)

/-- Running `pre ++ rest` when the steps of `pre` all succeed: it goes on with `rest`
from the state `pre` left. -/
theorem runSteps_append (E : Env σ) (t : Tester σ) (pre rest : List Step) :
    ∀ s : σ, (t.runSteps E pre).ret s = none →
      (t.runSteps E (pre ++ rest)).run s =
        ((t.runSteps E rest).ret ((t.runSteps E pre).after s),
         (t.runSteps E rest).after ((t.runSteps E pre).after s),
         (t.runSteps E pre).events s ++ (t.runSteps E rest).events ((t.runSteps E pre).after s))
    := by
  induction pre with
  | nil =>
    intro s _
    simp [Tester.runSteps, Act.run_eq]
  | cons st pre ih =>
    intro s h
    have hst := stepFn_ret_of_runSteps_cons E t st pre s h
    have hcons := runSteps_cons_ok E t st pre s hst
    have hcons2 := runSteps_cons_ok E t st (pre ++ rest) s hst
    simp only [Act.run_eq, Prod.mk.injEq] at hcons hcons2
    have hpre : (t.runSteps E pre).ret ((t.stepFn E st).after s) = none := by
      rw [← hcons.1]; exact h
    have := ih ((t.stepFn E st).after s) hpre
    simp only [Act.run_eq, Prod.mk.injEq] at this
    simp only [List.cons_append, Act.run_eq, Prod.mk.injEq, hcons.1, hcons.2.1, hcons.2.2,
      hcons2.1, hcons2.2.1, hcons2.2.2, this.1, this.2.1, this.2.2, List.append_assoc,
      and_self]

/-- Running `pre ++ st :: post` when the steps of `pre` succeed and `st` fails: the run
ends with `st`. -/
theorem runSteps_first_failure (E : Env σ) (t : Tester σ) (pre : List Step) (st : Step)
    (post : List Step) (s : σ) (e : GoError) (hpre : (t.runSteps E pre).ret s = none)
    (hfail : (t.stepFn E st).ret ((t.runSteps E pre).after s) = some e) :
    (t.runSteps E (pre ++ st :: post)).run s =
      (some e, (t.stepFn E st).after ((t.runSteps E pre).after s),
        (t.runSteps E pre).events s ++ (t.runStep E st).events ((t.runSteps E pre).after s)) := by
  have h2 := runSteps_cons_fail E t st post ((t.runSteps E pre).after s) e hfail
  simp only [Act.run_eq, Prod.mk.injEq] at h2
  rw [runSteps_append E t pre (st :: post) s hpre, h2.1, h2.2.1, h2.2.2]

/-- Either every step of a list succeeds, or the list splits at its first failing step. -/
theorem runSteps_cases (E : Env σ) (t : Tester σ) (steps : List Step) :
    ∀ s : σ, (t.runSteps E steps).ret s = none ∨
      ∃ pre st post e, steps = pre ++ st :: post ∧ (t.runSteps E pre).ret s = none ∧
        (t.stepFn E st).ret ((t.runSteps E pre).after s) = some e := by
  induction steps with
  | nil =>
    intro s
    exact Or.inl rfl
  | cons st rest ih =>
    intro s
    cases hst : (t.stepFn E st).ret s with
    | some e =>
      exact Or.inr ⟨[], st, rest, e, rfl, rfl, hst⟩
    | none =>
      have hcons := runSteps_cons_ok E t st rest s hst
      simp only [Act.run_eq, Prod.mk.injEq] at hcons
      rcases ih ((t.stepFn E st).after s) with h | ⟨pre, st2, post, e, hsplit, hpre, hfail⟩
      · left
        rw [hcons.1, h]
      · right
        have hcons2 := runSteps_cons_ok E t st pre s hst
        simp only [Act.run_eq, Prod.mk.injEq] at hcons2
        refine ⟨st :: pre, st2, post, e, by rw [hsplit, List.cons_append], ?_, ?_⟩
        · rw [hcons2.1, hpre]
        · rw [hcons2.2.1, hfail]

/-- The loop of `Test` over the search modes runs the search steps of the modes in order. -/
theorem testSearchModes_eq_runSteps (E : Env σ) (t : Tester σ) (modes : List SearchMode) :
    t.testSearchModes E modes = t.runSteps E (modes.map Step.search) := by
  induction modes with
  | nil => rfl
  | cons mode rest ih =>
    simp only [List.map_cons, Tester.testSearchModes, Tester.runSteps, ih]
    all_goals rfl

/-- The probes of `Test` run the search steps, the empty-result step and the ratio
step. -/
theorem testProbes_run (E : Env σ) (t : Tester σ) (s : σ) :
    (t.testProbes E).run s =
      (t.runSteps E (t.Runner.Capabilities.SearchModes.map Step.search
        ++ [Step.emptyResults, Step.ratio])).run s := by
  rcases runSteps_cases E t (t.Runner.Capabilities.SearchModes.map Step.search) s with
    h | ⟨pre, st, post, e, hsplit, hpre, hfail⟩
  · rw [runSteps_append E t _ [Step.emptyResults, Step.ratio] s h]
    simp only [Tester.testProbes, testSearchModes_eq_runSteps, Act.run_eq, Act.ret_bind,
      Act.after_bind, Act.events_bind, h, Tester.runSteps, Tester.runStep, Step.format,
      Step.args, Tester.stepFn, Prod.mk.injEq]
  · have hf := runSteps_first_failure E t pre st post s e hpre hfail
    have hf2 := runSteps_first_failure E t pre st (post ++ [Step.emptyResults, Step.ratio]) s e
      hpre hfail
    rw [← hsplit] at hf
    rw [hsplit, List.append_assoc, List.cons_append, hf2, ← hf]
    simp only [Act.run_eq, Prod.mk.injEq] at hf
    simp only [Tester.testProbes, testSearchModes_eq_runSteps, Act.run_eq, Act.ret_bind,
      Act.after_bind, Act.events_bind, hf.1, Act.ret_pure, Act.after_pure, Act.events_pure,
      List.append_nil]

/-- The body of `Test` runs the steps of the fixed order up to the first failure. -/
theorem testBody_run (E : Env σ) (t : Tester σ) (s : σ) :
    (t.testBody E).run s = (t.runSteps E t.fixedOrder).run s := by
  cases hl : t.Runner.definition.Login.IsEmpty with
  | true =>
    simp only [Tester.testBody, Tester.fixedOrder, Tester.loginSteps, Tester.searchSteps, hl,
      Bool.not_true, Bool.false_eq_true, if_false, if_true, List.nil_append]
    rw [testProbes_run]
  | false =>
    have hfo : t.fixedOrder = Step.config :: Step.login ::
        (t.Runner.Capabilities.SearchModes.map Step.search ++
          [Step.emptyResults, Step.ratio]) := by
      simp [Tester.fixedOrder, Tester.loginSteps, Tester.searchSteps, hl]
    rw [hfo]
    simp only [Tester.testBody, hl, Bool.not_false, if_true]
    have hp := testProbes_run E t
    simp only [Act.run_eq, Prod.mk.injEq] at hp
    simp only [Tester.runSteps, Tester.runStep, Step.format, Step.args, Tester.stepFn,
      Act.run_eq, Act.ret_bind, Act.after_bind, Act.events_bind, Prod.mk.injEq]
    refine ⟨?_, ?_, ?_⟩ <;>
      cases (t.printfWithResult E "  Testing required config is available" []
        t.configProbe).ret s <;>
      simp only [Act.ret_bind, Act.after_bind, Act.events_bind, Act.ret_pure, Act.after_pure,
        Act.events_pure] <;>
      cases (t.printfWithResult E "  Testing login with valid credentials" []
        t.testLogin).ret ((t.printfWithResult E "  Testing required config is available" []
          t.configProbe).after s) <;>
      simp only [Act.ret_bind, Act.after_bind, Act.events_bind, Act.ret_pure, Act.after_pure,
        Act.events_pure, (hp _).1, (hp _).2.1, (hp _).2.2, Tester.runSteps, Tester.runStep,
        Step.format, Step.args, Tester.stepFn]

/-- What `Test` returns is what its body returns. -/
theorem Test_ret (E : Env σ) (t : Tester σ) (s : σ) :
    (t.Test E).ret s = (t.runSteps E t.fixedOrder).ret s := by
  have hb := testBody_run E t s
  simp only [Act.run_eq, Prod.mk.injEq] at hb
  simp only [Tester.Test, Act.ret_bind, printf_after, hb.1]
  cases (t.runSteps E t.fixedOrder).ret s <;> rfl

/-- The world after `Test` is the world after its body. -/
theorem Test_after (E : Env σ) (t : Tester σ) (s : σ) :
    (t.Test E).after s = (t.runSteps E t.fixedOrder).after s := by
  have hb := testBody_run E t s
  simp only [Act.run_eq, Prod.mk.injEq] at hb
  simp only [Tester.Test, Act.ret_bind, Act.after_bind, printf_after, hb.1, hb.2.1]
  cases (t.runSteps E t.fixedOrder).ret s <;> rfl

/-- The events of `Test`: the header line, the events of the steps, the summary line. -/
theorem Test_events (E : Env σ) (t : Tester σ) (s : σ) :
    (t.Test E).events s =
      t.headerEvent :: (t.runSteps E t.fixedOrder).events s ++
        [t.summaryEvent E ((t.runSteps E t.fixedOrder).ret s)] := by
  have hb := testBody_run E t s
  simp only [Act.run_eq, Prod.mk.injEq] at hb
  simp only [Tester.Test, Act.ret_bind, Act.after_bind, Act.events_bind, printf_after,
    printf_events, hb.1, hb.2.1, hb.2.2, Tester.headerEvent, Tester.summaryEvent]
  cases (t.runSteps E t.fixedOrder).ret s <;> simp

end Sequencer

section Observations

variable {σ : Type}

theorem stepOfEvent_labelEvent (t : Tester σ) (st : Step) :
    stepOfEvent (t.labelEvent st) = some st := by
  cases st <;> simp [Tester.labelEvent, Step.format, Step.args, stepOfEvent]

theorem stepOfEvent_statusEvent (E : Env σ) (t : Tester σ) (err : Option GoError)
    (t0 t1 : Int) : stepOfEvent (t.statusEvent E err t0 t1) = none := by
  simp [Tester.statusEvent, stepOfEvent]

theorem stepOfEvent_headerEvent (t : Tester σ) : stepOfEvent t.headerEvent = none := by
  simp [Tester.headerEvent, stepOfEvent]

theorem stepOfEvent_summaryEvent (E : Env σ) (t : Tester σ) (err : Option GoError) :
    stepOfEvent (t.summaryEvent E err) = none := by
  cases err <;> simp [Tester.summaryEvent, stepOfEvent]

theorem stepOfEvent_of_not_isPrint (ev : Event) (h : ev.isPrint = false) :
    stepOfEvent ev = none := by
  cases ev <;> simp_all [stepOfEvent, Event.isPrint]

theorem isCall_labelEvent (t : Tester σ) (st : Step) : (t.labelEvent st).isCall = false := rfl

theorem isCall_statusEvent (E : Env σ) (t : Tester σ) (err : Option GoError) (t0 t1 : Int) :
    (t.statusEvent E err t0 t1).isCall = false := rfl

theorem isCall_headerEvent (t : Tester σ) : t.headerEvent.isCall = false := rfl

theorem isCall_summaryEvent (E : Env σ) (t : Tester σ) (err : Option GoError) :
    (t.summaryEvent E err).isCall = false := by
  cases err <;> rfl

/-- Every event of a torrent check belongs to the fetch of the download. -/
theorem assertValidTorrent_events_isFetch (E : Env σ) (t : Tester σ) (result : ResultItem)
    (s : σ) : ∀ ev ∈ (t.assertValidTorrent E result).events s, ev.isFetch = true := by
  cases hparse : E.urlParse result.Link with
  | error err =>
    rw [Act.events, assertValidTorrent_parse_error E t result s err hparse]
    simp
  | ok u =>
    by_cases hmag : u.Scheme = "magnet"
    · rw [Act.events, assertValidTorrent_magnet E t result s u hparse hmag]
      simp
    · cases hdl : (t.Runner.Download result.Link s).1 with
      | error err =>
        rw [Act.events, assertValidTorrent_download_error E t result s u hparse hmag err hdl]
        simp [Event.isFetch]
      | ok rc =>
        rw [Act.events, assertValidTorrent_download_ok E t result s u hparse hmag rc hdl]
        simp [Event.isFetch]

/-- Every event of the validation loop belongs to the fetch of a download. -/
theorem assertValidResultsFrom_events_isFetch (E : Env σ) (t : Tester σ)
    (results : List ResultItem) :
    ∀ (idx : Nat) (s : σ), ∀ ev ∈ (t.assertValidResultsFrom E idx results).events s,
      ev.isFetch = true := by
  induction results with
  | nil =>
    intro idx s ev hev
    simp [Tester.assertValidResultsFrom] at hev
  | cons x xs ih =>
    intro idx s ev hev
    by_cases hv : x.fieldsValid
    · rw [assertValidResultsFrom_cons_valid E t idx x xs hv] at hev
      cases hd : t.Opts.Download with
      | false =>
        simp only [hd, Bool.false_eq_true, if_false] at hev
        exact ih (idx + 1) s ev hev
      | true =>
        simp only [hd, if_true, Act.events_bind, List.mem_append] at hev
        rcases hev with hev | hev
        · exact assertValidTorrent_events_isFetch E t x s ev hev
        · cases htor : (t.assertValidTorrent E x).ret s with
          | none =>
            simp only [htor] at hev
            exact ih (idx + 1) _ ev hev
          | some err =>
            simp [htor] at hev
    · exfalso
      rw [Tester.assertValidResultsFrom] at hev
      unfold ResultItem.fieldsValid at hv
      by_cases h1 : x.Title = ""
      · simp [h1] at hev
      by_cases h2 : x.Size = 0
      · simp [h1, h2] at hev
      by_cases h3 : x.Link = ""
      · simp [h1, h2, h3] at hev
      by_cases h4 : x.Site = ""
      · simp [h1, h2, h3, h4] at hev
      exact hv ⟨h1, Nat.pos_of_ne_zero h2, h3, h4⟩

theorem stepFn_config_events (E : Env σ) (t : Tester σ) (s : σ) :
    (t.stepFn E .config).events s = [.checkHasConfig (t.Runner.checkHasConfig s).1] := rfl

theorem stepFn_login_events (E : Env σ) (t : Tester σ) (s : σ) :
    (t.stepFn E .login).events s = [.login (t.Runner.login s).1] := rfl

/-- The events of a search probe: the `Search` call with the query of the mode, then the
events of the validation of what it returned, when it returned no error. -/
theorem stepFn_search_events (E : Env σ) (t : Tester σ) (mode : SearchMode) (s : σ) :
    (t.stepFn E (.search mode)).events s =
      .Search (searchModeQuery E mode) (t.Runner.Search (searchModeQuery E mode) s).1.1
          (t.Runner.Search (searchModeQuery E mode) s).1.2 ::
        (match (t.Runner.Search (searchModeQuery E mode) s).1.2 with
          | some _ => []
          | none => (t.assertValidResults E (t.Runner.Search (searchModeQuery E mode) s).1.1).events
              (t.Runner.Search (searchModeQuery E mode) s).2) := by
  simp only [Tester.stepFn, Tester.testSearchMode, Act.events_bind, callSearch_events,
    callSearch_ret, callSearch_after, List.singleton_append, List.cons.injEq, true_and]
  cases (t.Runner.Search (searchModeQuery E mode) s).1.2 <;> rfl

theorem stepFn_emptyResults_events (E : Env σ) (t : Tester σ) (s : σ) :
    (t.stepFn E .emptyResults).events s =
      [.Search emptyResultsQuery (t.Runner.Search emptyResultsQuery s).1.1
        (t.Runner.Search emptyResultsQuery s).1.2] := by
  simp only [Tester.stepFn, Tester.emptyResultsProbe, Act.events_bind, callSearch_events,
    callSearch_ret, callSearch_after]
  cases (t.Runner.Search emptyResultsQuery s).1.2 with
  | some err => rfl
  | none =>
    by_cases hlen : (t.Runner.Search emptyResultsQuery s).1.1.length > 0 <;> simp [hlen]

theorem stepFn_ratio_events (E : Env σ) (t : Tester σ) (s : σ) :
    (t.stepFn E .ratio).events s =
      [.Ratio (t.Runner.Ratio s).1.1 (t.Runner.Ratio s).1.2,
       .debugf "Ratio returned %s" [(t.Runner.Ratio s).1.1]] := rfl

/-- The events of a search probe after its `Search` call belong to fetches. -/
theorem stepFn_search_events_tail (E : Env σ) (t : Tester σ) (mode : SearchMode) (s : σ) :
    ∀ ev ∈ (t.stepFn E (.search mode)).events s,
      ev = .Search (searchModeQuery E mode) (t.Runner.Search (searchModeQuery E mode) s).1.1
          (t.Runner.Search (searchModeQuery E mode) s).1.2 ∨ ev.isFetch = true := by
  intro ev hev
  rw [stepFn_search_events, List.mem_cons] at hev
  rcases hev with hev | hev
  · exact Or.inl hev
  · right
    cases herr : (t.Runner.Search (searchModeQuery E mode) s).1.2 with
    | some err => simp [herr] at hev
    | none =>
      simp only [herr] at hev
      exact assertValidResultsFrom_events_isFetch E t _ 0 _ ev hev

/-- A step function prints nothing. -/
theorem stepFn_events_not_isPrint (E : Env σ) (t : Tester σ) (st : Step) (s : σ) :
    ∀ ev ∈ (t.stepFn E st).events s, ev.isPrint = false := by
  intro ev hev
  cases st with
  | config => rw [stepFn_config_events] at hev; simp at hev; subst hev; rfl
  | login => rw [stepFn_login_events] at hev; simp at hev; subst hev; rfl
  | search mode =>
    rcases stepFn_search_events_tail E t mode s ev hev with h | h
    · subst h; rfl
    · cases ev <;> simp_all [Event.isFetch, Event.isPrint]
  | emptyResults => rw [stepFn_emptyResults_events] at hev; simp at hev; subst hev; rfl
  | ratio =>
    rw [stepFn_ratio_events] at hev
    simp at hev
    rcases hev with h | h <;> subst h <;> rfl

theorem stepsAttempted_append (a b : List Event) :
    stepsAttempted (a ++ b) = stepsAttempted a ++ stepsAttempted b :=
  List.filterMap_append a b stepOfEvent

theorem adapterCalls_append (a b : List Event) :
    adapterCalls (a ++ b) = adapterCalls a ++ adapterCalls b :=
  List.filter_append a b

theorem stepsAttempted_stepFn (E : Env σ) (t : Tester σ) (st : Step) (s : σ) :
    stepsAttempted ((t.stepFn E st).events s) = [] := by
  rw [stepsAttempted, List.filterMap_eq_nil_iff]
  intro ev hev
  exact stepOfEvent_of_not_isPrint ev (stepFn_events_not_isPrint E t st s ev hev)

/-- A step that is run is one step attempted. -/
theorem stepsAttempted_runStep (E : Env σ) (t : Tester σ) (st : Step) (s : σ) :
    stepsAttempted ((t.runStep E st).events s) = [st] := by
  rw [runStep_events, ← List.singleton_append, List.append_assoc, stepsAttempted_append,
    stepsAttempted_append, stepsAttempted_stepFn]
  simp [stepsAttempted, stepOfEvent_labelEvent, stepOfEvent_statusEvent]

/-- The calls to the runner during a step are those of its step function. -/
theorem adapterCalls_runStep (E : Env σ) (t : Tester σ) (st : Step) (s : σ) :
    adapterCalls ((t.runStep E st).events s) = adapterCalls ((t.stepFn E st).events s) := by
  rw [runStep_events, ← List.singleton_append, List.append_assoc, adapterCalls_append,
    adapterCalls_append]
  simp [adapterCalls, isCall_labelEvent, isCall_statusEvent]

/-- When every step of a list succeeds, the steps attempted are the list. -/
theorem stepsAttempted_runSteps_ok (E : Env σ) (t : Tester σ) (steps : List Step) :
    ∀ s : σ, (t.runSteps E steps).ret s = none →
      stepsAttempted ((t.runSteps E steps).events s) = steps := by
  induction steps with
  | nil =>
    intro s _
    rfl
  | cons st rest ih =>
    intro s h
    have hst := stepFn_ret_of_runSteps_cons E t st rest s h
    have hcons := runSteps_cons_ok E t st rest s hst
    simp only [Act.run_eq, Prod.mk.injEq] at hcons
    rw [hcons.1] at h
    rw [hcons.2.2, stepsAttempted_append, stepsAttempted_runStep, ih _ h]
    rfl

/-- A run of `Test` in which the steps of `pre` succeed and the next step `st` fails. -/
theorem Test_first_failure (E : Env σ) (t : Tester σ) (s : σ) (pre : List Step) (st : Step)
    (post : List Step) (e : GoError) (horder : t.fixedOrder = pre ++ st :: post)
    (hpre : (t.runSteps E pre).ret s = none)
    (hfail : (t.stepFn E st).ret ((t.runSteps E pre).after s) = some e) :
    (t.Test E).ret s = some e ∧
    (t.Test E).after s = (t.stepFn E st).after ((t.runSteps E pre).after s) ∧
    (t.Test E).events s =
      t.headerEvent :: ((t.runSteps E pre).events s ++
        (t.runStep E st).events ((t.runSteps E pre).after s)) ++
        [t.summaryEvent E (some e)] := by
  have h := runSteps_first_failure E t pre st post s e hpre hfail
  rw [← horder] at h
  simp only [Act.run_eq, Prod.mk.injEq] at h
  rw [Test_ret, Test_after, Test_events, h.1, h.2.1, h.2.2]
  exact ⟨rfl, rfl, rfl⟩

/-- A run of `Test` in which every step succeeds. -/
theorem Test_all_succeed (E : Env σ) (t : Tester σ) (s : σ)
    (h : (t.runSteps E t.fixedOrder).ret s = none) :
    (t.Test E).ret s = none ∧
    (t.Test E).after s = (t.runSteps E t.fixedOrder).after s ∧
    (t.Test E).events s =
      t.headerEvent :: (t.runSteps E t.fixedOrder).events s ++ [t.summaryEvent E none] := by
  rw [Test_ret, Test_after, Test_events, h]
  exact ⟨rfl, rfl, rfl⟩

/-- The steps attempted in a run of `Test` that stops at a failing step. -/
theorem stepsAttempted_first_failure (E : Env σ) (t : Tester σ) (s : σ) (pre : List Step)
    (st : Step) (e : GoError) (hpre : (t.runSteps E pre).ret s = none) :
    stepsAttempted (t.headerEvent :: ((t.runSteps E pre).events s ++
        (t.runStep E st).events ((t.runSteps E pre).after s)) ++
        [t.summaryEvent E (some e)]) = pre ++ [st] := by
  rw [← List.singleton_append, List.append_assoc, stepsAttempted_append, stepsAttempted_append,
    stepsAttempted_append, stepsAttempted_runSteps_ok E t pre s hpre, stepsAttempted_runStep]
  simp [stepsAttempted, stepOfEvent_headerEvent, stepOfEvent_summaryEvent]

/-- The calls to the runner in a run of `Test` that stops at a failing step. -/
theorem adapterCalls_first_failure (E : Env σ) (t : Tester σ) (s : σ) (pre : List Step)
    (st : Step) (e : GoError) :
    adapterCalls (t.headerEvent :: ((t.runSteps E pre).events s ++
        (t.runStep E st).events ((t.runSteps E pre).after s)) ++
        [t.summaryEvent E (some e)]) =
      adapterCalls ((t.runSteps E pre).events s) ++
        adapterCalls ((t.stepFn E st).events ((t.runSteps E pre).after s)) := by
  rw [← List.singleton_append, List.append_assoc, adapterCalls_append, adapterCalls_append,
    adapterCalls_append, adapterCalls_runStep]
  simp [adapterCalls, isCall_headerEvent, isCall_summaryEvent]

end Observations

section SequencerClaims

variable {σ : Type}

/-- The header and summary lines are not step labels. -/
theorem stepsAttempted_wrap (E : Env σ) (t : Tester σ) (evs : List Event)
    (err : Option GoError) :
    stepsAttempted (t.headerEvent :: evs ++ [t.summaryEvent E err]) = stepsAttempted evs := by
  rw [← List.singleton_append, List.append_assoc, stepsAttempted_append, stepsAttempted_append]
  simp [stepsAttempted, stepOfEvent_headerEvent, stepOfEvent_summaryEvent]

/-- The header and summary lines are not calls to the runner. -/
theorem adapterCalls_wrap (E : Env σ) (t : Tester σ) (evs : List Event)
    (err : Option GoError) :
    adapterCalls (t.headerEvent :: evs ++ [t.summaryEvent E err]) = adapterCalls evs := by
  rw [← List.singleton_append, List.append_assoc, adapterCalls_append, adapterCalls_append]
  simp [adapterCalls, isCall_headerEvent, isCall_summaryEvent]

/-- The login step is the second step of the fixed order and nowhere else. -/
theorem pre_of_fixedOrder_login (t : Tester σ) (pre post : List Step)
    (horder : t.fixedOrder = pre ++ Step.login :: post) : pre = [Step.config] := by
  have hnot : Step.login ∉ t.searchSteps ++ [Step.emptyResults, Step.ratio] := by
    simp [Tester.searchSteps]
  cases hl : t.Runner.definition.Login.IsEmpty with
  | true =>
    exfalso
    apply hnot
    have : t.fixedOrder = t.searchSteps ++ [Step.emptyResults, Step.ratio] := by
      simp [Tester.fixedOrder, Tester.loginSteps, hl]
    rw [← this, horder]
    simp
  | false =>
    have hfo : t.fixedOrder = Step.config :: Step.login ::
        (t.searchSteps ++ [Step.emptyResults, Step.ratio]) := by
      simp [Tester.fixedOrder, Tester.loginSteps, hl]
    rw [hfo] at horder
    match pre, horder with
    | [], h => simp at h
    | [x], h =>
      simp only [List.cons_append, List.nil_append, List.cons.injEq] at h
      rw [← h.1]
    | x :: y :: pre2, h =>
      exfalso
      simp only [List.cons_append, List.cons.injEq] at h
      apply hnot
      rw [h.2.2]
      simp

/-- The events of the login steps when they succeed. -/
theorem loginSteps_calls (E : Env σ) (t : Tester σ) (s : σ)
    (h : (t.runSteps E t.loginSteps).ret s = none) :
    adapterCalls ((t.runSteps E t.loginSteps).events s) =
      if t.Runner.definition.Login.IsEmpty then []
      else [Event.checkHasConfig none, Event.login none] := by
  cases hl : t.Runner.definition.Login.IsEmpty with
  | true =>
    simp [Tester.loginSteps, hl, Tester.runSteps, adapterCalls]
  | false =>
    have hls : t.loginSteps = [Step.config, Step.login] := by simp [Tester.loginSteps, hl]
    rw [hls] at h ⊢
    have h1 := stepFn_ret_of_runSteps_cons E t _ _ s h
    have hc1 := runSteps_cons_ok E t Step.config [Step.login] s h1
    simp only [Act.run_eq, Prod.mk.injEq] at hc1
    rw [hc1.1] at h
    have h2 := stepFn_ret_of_runSteps_cons E t _ _ _ h
    have hc2 := runSteps_cons_ok E t Step.login [] _ h2
    simp only [Act.run_eq, Prod.mk.injEq] at hc2
    rw [hc1.2.2, hc2.2.2, adapterCalls_append, adapterCalls_append, adapterCalls_runStep,
      adapterCalls_runStep, stepFn_config_events, stepFn_login_events]
    have h1 : (t.Runner.checkHasConfig s).1 = none := h1
    have h2 : (t.Runner.login ((t.stepFn E Step.config).after s)).1 = none := h2
    rw [h1, h2]
    simp [adapterCalls, Event.isCall, Tester.runSteps]

/-- C3: `Test` stops at the first step whose function returns an error. When the steps
`pre` of the fixed order succeed and the next step `st` returns the error `e`, `Test`
returns exactly `e`; the steps attempted are `pre` and `st` and no later one; the calls to
the runner are those of `pre` and of `st` and no later one; the world is left as the
failing step function left it. In particular when the failing step is the login, the only
calls to the runner are `checkHasConfig` and `login`: neither `Search` nor `Ratio` is
called. -/
theorem Test_stops_at_first_failing_step (E : Env σ) (t : Tester σ) (s : σ)
    (pre : List Step) (st : Step) (post : List Step) (e : GoError)
    (horder : t.fixedOrder = pre ++ st :: post)
    (hpre : (t.runSteps E pre).ret s = none)
    (hfail : (t.stepFn E st).ret ((t.runSteps E pre).after s) = some e) :
    (t.Test E).ret s = some e ∧
    stepsAttempted ((t.Test E).events s) = pre ++ [st] ∧
    adapterCalls ((t.Test E).events s) =
      adapterCalls ((t.runSteps E pre).events s) ++
        adapterCalls ((t.stepFn E st).events ((t.runSteps E pre).after s)) ∧
    (t.Test E).after s = (t.stepFn E st).after ((t.runSteps E pre).after s) ∧
    (st = Step.login →
      adapterCalls ((t.Test E).events s) = [.checkHasConfig none, .login (some e)]) := by
  obtain ⟨hret, hafter, hevents⟩ := Test_first_failure E t s pre st post e horder hpre hfail
  have hcalls := adapterCalls_first_failure E t s pre st e
  refine ⟨hret, ?_, ?_, hafter, ?_⟩
  · rw [hevents, stepsAttempted_first_failure E t s pre st e hpre]
  · rw [hevents, hcalls]
  · intro hst
    subst hst
    have hp := pre_of_fixedOrder_login t pre post horder
    subst hp
    have h1 := stepFn_ret_of_runSteps_cons E t _ _ s hpre
    have hc1 := runSteps_cons_ok E t Step.config [] s h1
    simp only [Act.run_eq, Prod.mk.injEq] at hc1
    rw [hc1.2.1] at hfail
    rw [hevents, hcalls, hc1.2.2, hc1.2.1, adapterCalls_append, adapterCalls_runStep,
      stepFn_config_events, stepFn_login_events]
    have h1 : (t.Runner.checkHasConfig s).1 = none := h1
    have h2 : (t.Runner.login ((t.runSteps E []).after ((t.stepFn E Step.config).after s))).1
        = some e := hfail
    rw [h1, h2]
    simp [adapterCalls, Event.isCall, Tester.runSteps]

/-- C3, witness (scenario B): the adapter has a login block, its config check passes and
its login fails with an authentication error; `Test` returns that error after the login
step, and `checkHasConfig` and `login` are the only calls to the runner. -/
theorem Test_stops_at_first_failing_step_witness :
    (scenarioBTester.Test exampleEnv).ret 0 = some (.foreign "authentication failed") ∧
    stepsAttempted ((scenarioBTester.Test exampleEnv).events 0) =
      [Step.config] ++ [Step.login] ∧
    adapterCalls ((scenarioBTester.Test exampleEnv).events 0) =
      [.checkHasConfig none, .login (some (.foreign "authentication failed"))] :=
  have h := Test_stops_at_first_failing_step exampleEnv scenarioBTester 0 [Step.config]
    Step.login [Step.search { Key := "search" }, Step.emptyResults, Step.ratio]
    (.foreign "authentication failed") (by decide) (by decide) (by decide)
  ⟨h.1, h.2.1, h.2.2.2.2 rfl⟩

/-- The steps `Test` attempts are an initial segment of the fixed order. -/
theorem stepsAttempted_Test_initial (E : Env σ) (t : Tester σ) (s : σ) :
    ∃ post, stepsAttempted ((t.Test E).events s) ++ post = t.fixedOrder := by
  rcases runSteps_cases E t t.fixedOrder s with h | ⟨pre, st, post, e, hsplit, hpre, hfail⟩
  · obtain ⟨_, _, hevents⟩ := Test_all_succeed E t s h
    rw [hevents, stepsAttempted_wrap, stepsAttempted_runSteps_ok E t _ s h]
    exact ⟨[], List.append_nil _⟩
  · obtain ⟨_, _, hevents⟩ := Test_first_failure E t s pre st post e hsplit hpre hfail
    rw [hevents, stepsAttempted_first_failure E t s pre st e hpre, hsplit]
    exact ⟨post, by simp⟩

/-- C4: the steps `Test` attempts are an initial segment of the fixed order (config check,
login, one search probe per declared search mode in the order they are listed, the
empty-result probe, the ratio probe): each step is attempted at most once, in its place,
and only after every earlier applicable step. -/
theorem Test_steps_follow_fixed_order (E : Env σ) (t : Tester σ) (s : σ) :
    stepsAttempted ((t.Test E).events s) <+: t.fixedOrder :=
  stepsAttempted_Test_initial E t s

end SequencerClaims

section LoginClaims

variable {σ : Type}

/-- An event of a run of steps is a print of the step runner or an event of the step
function of one of the steps. -/
theorem runSteps_events_mem (E : Env σ) (t : Tester σ) (steps : List Step) :
    ∀ (s : σ) (ev : Event), ev ∈ (t.runSteps E steps).events s →
      ev.isPrint = true ∨ ∃ st ∈ steps, ∃ s1, ev ∈ (t.stepFn E st).events s1 := by
  induction steps with
  | nil =>
    intro s ev hev
    simp [Tester.runSteps] at hev
  | cons st rest ih =>
    intro s ev hev
    have hstep : ev ∈ (t.runStep E st).events s →
        ev.isPrint = true ∨ ∃ st2 ∈ st :: rest, ∃ s1, ev ∈ (t.stepFn E st2).events s1 := by
      intro h
      rw [runStep_events, List.mem_append, List.mem_cons, List.mem_singleton] at h
      rcases h with (h | h) | h
      · left; rw [h]; rfl
      · right; exact ⟨st, List.mem_cons_self st rest, s, h⟩
      · left; rw [h]; rfl
    cases hst : (t.stepFn E st).ret s with
    | some e =>
      rw [Act.events, runSteps_cons_fail E t st rest s e hst] at hev
      exact hstep hev
    | none =>
      rw [Act.events, runSteps_cons_ok E t st rest s hst, List.mem_append] at hev
      rcases hev with h | h
      · exact hstep h
      · rcases ih _ ev h with h | ⟨st2, hmem, s1, h⟩
        · exact Or.inl h
        · exact Or.inr ⟨st2, List.mem_cons_of_mem st hmem, s1, h⟩

/-- The step functions other than the config check and the login make no call to
`checkHasConfig` or `login`. -/
theorem stepFn_events_no_login_call (E : Env σ) (t : Tester σ) (st : Step) (s : σ)
    (h1 : st ≠ Step.config) (h2 : st ≠ Step.login) :
    ∀ ev ∈ (t.stepFn E st).events s, ∀ err,
      ev ≠ Event.checkHasConfig err ∧ ev ≠ Event.login err := by
  intro ev hev err
  cases st with
  | config => exact absurd rfl h1
  | login => exact absurd rfl h2
  | search mode =>
    rcases stepFn_search_events_tail E t mode s ev hev with h | h
    · subst h; exact ⟨Event.noConfusion, Event.noConfusion⟩
    · cases ev <;> simp_all [Event.isFetch]
  | emptyResults =>
    rw [stepFn_emptyResults_events, List.mem_singleton] at hev
    subst hev; exact ⟨Event.noConfusion, Event.noConfusion⟩
  | ratio =>
    rw [stepFn_ratio_events] at hev
    simp only [List.mem_cons, List.mem_singleton, List.not_mem_nil, or_false] at hev
    rcases hev with h | h <;> subst h <;> exact ⟨Event.noConfusion, Event.noConfusion⟩

/-- The step functions other than the ratio probe make no call to `Ratio`. -/
theorem stepFn_events_no_ratio_call (E : Env σ) (t : Tester σ) (st : Step) (s : σ)
    (h1 : st ≠ Step.ratio) :
    ∀ ev ∈ (t.stepFn E st).events s, ∀ ratio err, ev ≠ Event.Ratio ratio err := by
  intro ev hev ratio err
  cases st with
  | config =>
    rw [stepFn_config_events, List.mem_singleton] at hev
    subst hev; exact Event.noConfusion
  | login =>
    rw [stepFn_login_events, List.mem_singleton] at hev
    subst hev; exact Event.noConfusion
  | search mode =>
    rcases stepFn_search_events_tail E t mode s ev hev with h | h
    · subst h; exact Event.noConfusion
    · cases ev <;> simp_all [Event.isFetch]
  | emptyResults =>
    rw [stepFn_emptyResults_events, List.mem_singleton] at hev
    subst hev; exact Event.noConfusion
  | ratio => exact absurd rfl h1

/-- C5: when the login block of the definition is empty, `Test` calls neither
`checkHasConfig` nor `login` and attempts neither the config-check step nor the login
step; when it is not empty, the config check is the first step attempted and
`checkHasConfig` the first call to the runner, and if the config check succeeds the login
is the second step attempted and `login` the second call, so both come before any search
probe. -/
theorem Test_login_steps (E : Env σ) (t : Tester σ) (s : σ) :
    (t.Runner.definition.Login.IsEmpty = true →
      (∀ ev ∈ (t.Test E).events s, ∀ err,
        ev ≠ Event.checkHasConfig err ∧ ev ≠ Event.login err) ∧
      Step.config ∉ stepsAttempted ((t.Test E).events s) ∧
      Step.login ∉ stepsAttempted ((t.Test E).events s)) ∧
    (t.Runner.definition.Login.IsEmpty = false →
      (stepsAttempted ((t.Test E).events s)).head? = some Step.config ∧
      (adapterCalls ((t.Test E).events s)).head? =
        some (Event.checkHasConfig (t.Runner.checkHasConfig s).1) ∧
      ((t.Runner.checkHasConfig s).1 = none →
        (stepsAttempted ((t.Test E).events s)).take 2 = [Step.config, Step.login] ∧
        (adapterCalls ((t.Test E).events s)).take 2 =
          [Event.checkHasConfig none,
           Event.login (t.Runner.login (t.Runner.checkHasConfig s).2).1])) := by
  constructor
  · intro hl
    have hfo : t.fixedOrder = t.searchSteps ++ [Step.emptyResults, Step.ratio] := by
      simp [Tester.fixedOrder, Tester.loginSteps, hl]
    have hc : Step.config ∉ t.fixedOrder := by rw [hfo]; simp [Tester.searchSteps]
    have hlg : Step.login ∉ t.fixedOrder := by rw [hfo]; simp [Tester.searchSteps]
    obtain ⟨post, hpost⟩ := stepsAttempted_Test_initial E t s
    refine ⟨?_, ?_, ?_⟩
    · intro ev hev err
      rw [Test_events, List.mem_append, List.mem_cons, List.mem_singleton] at hev
      rcases hev with (h | h) | h
      · subst h; exact ⟨Event.noConfusion, Event.noConfusion⟩
      · rcases runSteps_events_mem E t _ s ev h with hp | ⟨st, hmem, s1, hin⟩
        · cases ev <;> simp_all [Event.isPrint]
        · refine stepFn_events_no_login_call E t st s1 ?_ ?_ ev hin err
          · intro h; subst h; exact hc hmem
          · intro h; subst h; exact hlg hmem
      · subst h
        cases (t.runSteps E t.fixedOrder).ret s <;>
          exact ⟨Event.noConfusion, Event.noConfusion⟩
    · intro h
      apply hc
      rw [← hpost]
      exact List.mem_append_left post h
    · intro h
      apply hlg
      rw [← hpost]
      exact List.mem_append_left post h
  · intro hl
    have hfo : t.fixedOrder = Step.config :: Step.login ::
        (t.searchSteps ++ [Step.emptyResults, Step.ratio]) := by
      simp [Tester.fixedOrder, Tester.loginSteps, hl]
    rw [Test_events, stepsAttempted_wrap, adapterCalls_wrap, hfo]
    cases hc : (t.Runner.checkHasConfig s).1 with
    | some e =>
      have h1 : (t.stepFn E Step.config).ret s = some e := hc
      rw [Act.events, runSteps_cons_fail E t _ _ s e h1, stepsAttempted_runStep,
        adapterCalls_runStep, stepFn_config_events, hc]
      simp [adapterCalls, Event.isCall]
    | none =>
      have h1 : (t.stepFn E Step.config).ret s = none := hc
      rw [Act.events, runSteps_cons_ok E t _ _ s h1, stepsAttempted_append,
        adapterCalls_append, stepsAttempted_runStep, adapterCalls_runStep,
        stepFn_config_events, hc]
      have hs1 : (t.stepFn E Step.config).after s = (t.Runner.checkHasConfig s).2 := rfl
      rw [hs1]
      cases hlog : (t.Runner.login (t.Runner.checkHasConfig s).2).1 with
      | some e =>
        have h2 : (t.stepFn E Step.login).ret (t.Runner.checkHasConfig s).2 = some e := hlog
        rw [Act.events, runSteps_cons_fail E t _ _ _ e h2, stepsAttempted_runStep,
          adapterCalls_runStep, stepFn_login_events, hlog]
        simp [adapterCalls, Event.isCall]
      | none =>
        have h2 : (t.stepFn E Step.login).ret (t.Runner.checkHasConfig s).2 = none := hlog
        rw [Act.events, runSteps_cons_ok E t _ _ _ h2, stepsAttempted_append,
          adapterCalls_append, stepsAttempted_runStep, adapterCalls_runStep,
          stepFn_login_events, hlog]
        simp [adapterCalls, Event.isCall]

/-- C5, witness: scenario A has no login block and scenario C has one whose steps pass. -/
theorem Test_login_steps_witness :
    ((∀ ev ∈ (scenarioATester.Test exampleEnv).events 0, ∀ err,
        ev ≠ Event.checkHasConfig err ∧ ev ≠ Event.login err) ∧
      Step.config ∉ stepsAttempted ((scenarioATester.Test exampleEnv).events 0) ∧
      Step.login ∉ stepsAttempted ((scenarioATester.Test exampleEnv).events 0)) ∧
    ((stepsAttempted ((scenarioCTester.Test exampleEnv).events 0)).take 2 =
        [Step.config, Step.login] ∧
      (adapterCalls ((scenarioCTester.Test exampleEnv).events 0)).take 2 =
        [Event.checkHasConfig none, Event.login none]) :=
  ⟨(Test_login_steps exampleEnv scenarioATester 0).1 rfl,
   ((Test_login_steps exampleEnv scenarioCTester 0).2 rfl).2.2 rfl⟩

end LoginClaims

section ScenarioClaims

variable {σ : Type}

theorem isStatus_labelEvent (t : Tester σ) (st : Step) : (t.labelEvent st).isStatus = false := by
  cases st <;> simp [Tester.labelEvent, Step.format, Event.isStatus]

theorem isStatus_statusEvent (E : Env σ) (t : Tester σ) (err : Option GoError) (t0 t1 : Int) :
    (t.statusEvent E err t0 t1).isStatus = true := by
  simp [Tester.statusEvent, Event.isStatus]

theorem isStatus_headerEvent (t : Tester σ) : t.headerEvent.isStatus = false := by
  simp [Tester.headerEvent, Event.isStatus]

theorem isStatus_summaryEvent (E : Env σ) (t : Tester σ) (err : Option GoError) :
    (t.summaryEvent E err).isStatus = false := by
  cases err <;> simp [Tester.summaryEvent, Event.isStatus]

theorem statusLines_append (a b : List Event) :
    statusLines (a ++ b) = statusLines a ++ statusLines b :=
  List.filter_append a b

/-- A step function prints no status line. -/
theorem statusLines_stepFn (E : Env σ) (t : Tester σ) (st : Step) (s : σ) :
    statusLines ((t.stepFn E st).events s) = [] := by
  rw [statusLines, List.filter_eq_nil_iff]
  intro ev hev
  have := stepFn_events_not_isPrint E t st s ev hev
  cases ev <;> simp_all [Event.isPrint, Event.isStatus]

/-- A step that is run reports one status line. -/
theorem statusLines_runStep (E : Env σ) (t : Tester σ) (st : Step) (s : σ) :
    (statusLines ((t.runStep E st).events s)).length = 1 := by
  rw [runStep_events, ← List.singleton_append, List.append_assoc, statusLines_append,
    statusLines_append, statusLines_stepFn]
  simp [statusLines, isStatus_labelEvent, isStatus_statusEvent]

/-- When every step of a list succeeds, one status line is reported per step. -/
theorem statusLines_runSteps_ok (E : Env σ) (t : Tester σ) (steps : List Step) :
    ∀ s : σ, (t.runSteps E steps).ret s = none →
      (statusLines ((t.runSteps E steps).events s)).length = steps.length := by
  induction steps with
  | nil =>
    intro s _
    rfl
  | cons st rest ih =>
    intro s h
    have hst := stepFn_ret_of_runSteps_cons E t st rest s h
    have hcons := runSteps_cons_ok E t st rest s hst
    simp only [Act.run_eq, Prod.mk.injEq] at hcons
    rw [hcons.1] at h
    rw [hcons.2.2, statusLines_append, List.length_append, statusLines_runStep, ih _ h,
      List.length_cons]
    omega

/-- The header and summary lines are not status lines. -/
theorem statusLines_wrap (E : Env σ) (t : Tester σ) (evs : List Event)
    (err : Option GoError) :
    statusLines (t.headerEvent :: evs ++ [t.summaryEvent E err]) = statusLines evs := by
  rw [← List.singleton_append, List.append_assoc, statusLines_append, statusLines_append]
  simp [statusLines, isStatus_headerEvent, isStatus_summaryEvent]

/-- What the empty-result probe returns, from what `Search` returns. -/
theorem emptyResultsProbe_ret (t : Tester σ) (s : σ) :
    t.emptyResultsProbe.ret s =
      match (t.Runner.Search emptyResultsQuery s).1.2 with
      | some err => some err
      | none =>
        if (t.Runner.Search emptyResultsQuery s).1.1.length > 0 then
          some (.errorf ("Expected no results, got " ++
            toString (t.Runner.Search emptyResultsQuery s).1.1.length))
        else none := by
  simp only [Tester.emptyResultsProbe, Act.ret_bind, callSearch_ret, callSearch_after]
  cases (t.Runner.Search emptyResultsQuery s).1.2 with
  | some err => rfl
  | none =>
    by_cases hlen : (t.Runner.Search emptyResultsQuery s).1.1.length > 0 <;> simp [hlen]

/-- C8: for an adapter that reaches the empty-result probe (the login steps and the search
probes before it succeed): if `Search` returns one or more results and no error for the
query whose only filter is Series = "nothingshouldmatchtheseresults", the probe fails with
the error "Expected no results, got n" for the number n of results, `Test` returns that
error, the ratio step is not attempted and `Ratio` is not called; if `Search` returns no
result and no error the probe succeeds. -/
theorem emptyResults_probe_unexpected_results (E : Env σ) (t : Tester σ) (s s1 : σ)
    (hreach : (t.runSteps E (t.loginSteps ++ t.searchSteps)).ret s = none)
    (hs1 : (t.runSteps E (t.loginSteps ++ t.searchSteps)).after s = s1) :
    emptyResultsQuery = { Series := "nothingshouldmatchtheseresults" } ∧
    (∀ results : List ResultItem,
      (t.Runner.Search emptyResultsQuery s1).1 = (results, none) → results ≠ [] →
        t.emptyResultsProbe.ret s1 =
          some (.errorf ("Expected no results, got " ++ toString results.length)) ∧
        (t.Test E).ret s =
          some (.errorf ("Expected no results, got " ++ toString results.length)) ∧
        Step.ratio ∉ stepsAttempted ((t.Test E).events s) ∧
        (∀ ratio err, Event.Ratio ratio err ∉ (t.Test E).events s)) ∧
    ((t.Runner.Search emptyResultsQuery s1).1 = ([], none) →
      t.emptyResultsProbe.ret s1 = none) := by
  refine ⟨rfl, ?_, ?_⟩
  · intro results hsearch hne
    have hlen : results.length > 0 := List.length_pos.mpr hne
    have hprobe : t.emptyResultsProbe.ret s1 =
        some (.errorf ("Expected no results, got " ++ toString results.length)) := by
      rw [emptyResultsProbe_ret, hsearch]
      simp [hlen]
    have horder : t.fixedOrder =
        (t.loginSteps ++ t.searchSteps) ++ Step.emptyResults :: [Step.ratio] := rfl
    have hfail : (t.stepFn E Step.emptyResults).ret
        ((t.runSteps E (t.loginSteps ++ t.searchSteps)).after s) =
        some (.errorf ("Expected no results, got " ++ toString results.length)) := by
      rw [hs1]; exact hprobe
    obtain ⟨hret, _, hevents⟩ := Test_first_failure E t s _ _ _ _ horder hreach hfail
    have hpre : ∀ st ∈ t.loginSteps ++ t.searchSteps, st ≠ Step.ratio := by
      intro st hst h
      subst h
      rw [List.mem_append] at hst
      rcases hst with h | h
      · unfold Tester.loginSteps at h
        split at h <;> simp at h
      · simp [Tester.searchSteps] at h
    refine ⟨hprobe, hret, ?_, ?_⟩
    · rw [hevents, stepsAttempted_first_failure E t s _ _ _ hreach, List.mem_append]
      rintro (h | h)
      · exact hpre _ h rfl
      · simp at h
    · intro ratio err hmem
      rw [hevents, List.mem_append, List.mem_cons, List.mem_append, runStep_events,
        List.mem_append, List.mem_cons, List.mem_singleton, List.mem_singleton] at hmem
      rcases hmem with (h | h | (h | h) | h) | h
      · exact Event.noConfusion h
      · rcases runSteps_events_mem E t _ s _ h with hp | ⟨st, hst, s2, hin⟩
        · exact absurd hp (by simp [Event.isPrint])
        · exact stepFn_events_no_ratio_call E t st s2 (hpre st hst) _ hin ratio err rfl
      · exact Event.noConfusion h
      · exact stepFn_events_no_ratio_call E t Step.emptyResults _ (by simp) _ h ratio err rfl
      · exact Event.noConfusion h
      · exact Event.noConfusion h
  · intro hsearch
    rw [emptyResultsProbe_ret, hsearch]
    simp

/-- C8, witness: an adapter without login that answers every query, the empty-result
query included, with three results. -/
theorem emptyResults_probe_unexpected_results_witness :
    chattyTester.emptyResultsProbe.ret 1 = some (.errorf "Expected no results, got 3") ∧
    (chattyTester.Test exampleEnv).ret 0 = some (.errorf "Expected no results, got 3") ∧
    Step.ratio ∉ stepsAttempted ((chattyTester.Test exampleEnv).events 0) ∧
    (∀ ratio err, Event.Ratio ratio err ∉ (chattyTester.Test exampleEnv).events 0) :=
  (emptyResults_probe_unexpected_results exampleEnv chattyTester 0 1 (by decide)
    (by decide)).2.1 [goodItem, goodItem, goodItem] rfl (by decide)

end ScenarioClaims

section EndToEnd

variable {σ : Type}

/-- What a search probe returns, from what `Search` returns. -/
theorem testSearchMode_ret (E : Env σ) (t : Tester σ) (mode : SearchMode) (s : σ) :
    (t.testSearchMode E mode).ret s =
      match (t.Runner.Search (searchModeQuery E mode) s).1.2 with
      | some err => some err
      | none => (t.assertValidResults E (t.Runner.Search (searchModeQuery E mode) s).1.1).ret
          (t.Runner.Search (searchModeQuery E mode) s).2 := by
  simp only [Tester.testSearchMode, Act.ret_bind, callSearch_ret, callSearch_after]
  cases (t.Runner.Search (searchModeQuery E mode) s).1.2 <;> rfl

/-- The world after a search probe, from what `Search` returns. -/
theorem testSearchMode_after (E : Env σ) (t : Tester σ) (mode : SearchMode) (s : σ) :
    (t.testSearchMode E mode).after s =
      match (t.Runner.Search (searchModeQuery E mode) s).1.2 with
      | some _ => (t.Runner.Search (searchModeQuery E mode) s).2
      | none => (t.assertValidResults E (t.Runner.Search (searchModeQuery E mode) s).1.1).after
          (t.Runner.Search (searchModeQuery E mode) s).2 := by
  simp only [Tester.testSearchMode, Act.after_bind, Act.ret_bind, callSearch_ret,
    callSearch_after]
  cases (t.Runner.Search (searchModeQuery E mode) s).1.2 <;> rfl

/-- C9 (as amended), end-to-end scenario A: for an adapter with no login block that
declares the one search mode "search", whose search probe returns, without error, results
that pass validation, whose empty-result query returns no result and whose ratio call
succeeds, `Test` returns nil and exactly 3 steps are reported (search probe, empty-result
probe, ratio probe), one status line each; the config check and the login are skipped. -/
theorem scenarioA_three_steps (E : Env σ) (t : Tester σ) (s s1 : σ)
    (results : List ResultItem)
    (hlogin : t.Runner.definition.Login.IsEmpty = true)
    (hmodes : t.Runner.Capabilities.SearchModes = [{ Key := "search" }])
    (hsearch : t.Runner.Search (searchModeQuery E { Key := "search" }) s = ((results, none), s1))
    (hvalid : (t.assertValidResults E results).ret s1 = none)
    (hempty : (t.Runner.Search emptyResultsQuery
      ((t.assertValidResults E results).after s1)).1 = ([], none))
    (hratio : (t.Runner.Ratio (t.Runner.Search emptyResultsQuery
      ((t.assertValidResults E results).after s1)).2).1.2 = none) :
    (t.Test E).ret s = none ∧
    stepsAttempted ((t.Test E).events s) =
      [Step.search { Key := "search" }, Step.emptyResults, Step.ratio] ∧
    (statusLines ((t.Test E).events s)).length = 3 := by
  have hfo : t.fixedOrder =
      [Step.search { Key := "search" }, Step.emptyResults, Step.ratio] := by
    simp [Tester.fixedOrder, Tester.loginSteps, Tester.searchSteps, hlogin, hmodes]
  have h1 : (t.stepFn E (Step.search { Key := "search" })).ret s = none := by
    show (t.testSearchMode E { Key := "search" }).ret s = none
    rw [testSearchMode_ret, hsearch]
    exact hvalid
  have ha1 : (t.stepFn E (Step.search { Key := "search" })).after s =
      (t.assertValidResults E results).after s1 := by
    show (t.testSearchMode E { Key := "search" }).after s = _
    rw [testSearchMode_after, hsearch]
  have h2 : (t.stepFn E Step.emptyResults).ret ((t.assertValidResults E results).after s1)
      = none := by
    show t.emptyResultsProbe.ret _ = none
    rw [emptyResultsProbe_ret, hempty]
    simp
  have ha2 : (t.stepFn E Step.emptyResults).after ((t.assertValidResults E results).after s1)
      = (t.Runner.Search emptyResultsQuery ((t.assertValidResults E results).after s1)).2 := by
    show t.emptyResultsProbe.after _ = _
    simp only [Tester.emptyResultsProbe, Act.after_bind, Act.ret_bind, callSearch_ret,
      callSearch_after, hempty]
    rfl
  have h3 : (t.stepFn E Step.ratio).ret (t.Runner.Search emptyResultsQuery
      ((t.assertValidResults E results).after s1)).2 = none := hratio
  have hall : (t.runSteps E t.fixedOrder).ret s = none := by
    rw [hfo, Act.ret, runSteps_cons_ok E t _ _ s h1, ha1]
    show (t.runSteps E [Step.emptyResults, Step.ratio]).ret _ = none
    rw [Act.ret, runSteps_cons_ok E t _ _ _ h2, ha2]
    show (t.runSteps E [Step.ratio]).ret _ = none
    rw [Act.ret, runSteps_cons_ok E t _ _ _ h3]
    rfl
  obtain ⟨hret, _, hevents⟩ := Test_all_succeed E t s hall
  refine ⟨hret, ?_, ?_⟩
  · rw [hevents, stepsAttempted_wrap, stepsAttempted_runSteps_ok E t _ s hall, hfo]
  · rw [hevents, statusLines_wrap, statusLines_runSteps_ok E t _ s hall, hfo]
    rfl

/-- C9, witness: the adapter of scenario A, whose search probe returns three valid
results. -/
theorem scenarioA_three_steps_witness :
    (scenarioATester.Test exampleEnv).ret 0 = none ∧
    stepsAttempted ((scenarioATester.Test exampleEnv).events 0) =
      [Step.search { Key := "search" }, Step.emptyResults, Step.ratio] ∧
    (statusLines ((scenarioATester.Test exampleEnv).events 0)).length = 3 :=
  scenarioA_three_steps exampleEnv scenarioATester 0 1 [goodItem, goodItem, goodItem]
    rfl rfl rfl (by decide) (by decide) (by decide)

/-- C9, counterexample to the claim as stated: the adapter of scenario A has no login
block, declares the one search mode "search", returns 3 valid results for the search
probe and none for the empty-result query, and its ratio call succeeds; `Test` returns nil,
but the number of steps reported is 3, not 4. -/
theorem scenarioA_four_steps_counterexample :
    scenarioATester.Runner.definition.Login.IsEmpty = true ∧
    scenarioATester.Runner.Capabilities.SearchModes = [{ Key := "search" }] ∧
    (scenarioATester.Runner.Search (searchModeQuery exampleEnv { Key := "search" }) 0).1 =
      ([goodItem, goodItem, goodItem], none) ∧
    goodItem.fieldsValid ∧
    (scenarioATester.Runner.Search emptyResultsQuery 1).1 = ([], none) ∧
    (scenarioATester.Runner.Ratio 2).1.2 = none ∧
    (scenarioATester.Test exampleEnv).ret 0 = none ∧
    (statusLines ((scenarioATester.Test exampleEnv).events 0)).length = 3 ∧
    (stepsAttempted ((scenarioATester.Test exampleEnv).events 0)).length = 3 ∧
    ¬ (statusLines ((scenarioATester.Test exampleEnv).events 0)).length = 4 := by
  decide

/-- C10, end-to-end scenario C: when the login steps succeed (or none applies) and the
first search probe returns, without error, a list of one result that has a title and size
0, `Test` returns the error "Result row 1 has zero size"; the steps attempted are the
login steps and that search probe, and the calls to the runner are those of the login
steps and that one `Search`: no further search probe, no empty-result probe and no ratio
probe is executed. -/
theorem scenarioC_zero_size (E : Env σ) (t : Tester σ) (s s1 : σ)
    (mode : SearchMode) (rest : List SearchMode) (r : ResultItem)
    (hmodes : t.Runner.Capabilities.SearchModes = mode :: rest)
    (hlogin : (t.runSteps E t.loginSteps).ret s = none)
    (hs1 : (t.runSteps E t.loginSteps).after s = s1)
    (hsearch : (t.Runner.Search (searchModeQuery E mode) s1).1 = ([r], none))
    (htitle : r.Title ≠ "") (hsize : r.Size = 0) :
    (t.Test E).ret s = some (.errorf "Result row 1 has zero size") ∧
    stepsAttempted ((t.Test E).events s) = t.loginSteps ++ [Step.search mode] ∧
    adapterCalls ((t.Test E).events s) =
      (if t.Runner.definition.Login.IsEmpty then []
        else [Event.checkHasConfig none, Event.login none]) ++
      [Event.Search (searchModeQuery E mode) [r] none] := by
  have horder : t.fixedOrder = t.loginSteps ++ Step.search mode ::
      (rest.map Step.search ++ [Step.emptyResults, Step.ratio]) := by
    simp [Tester.fixedOrder, Tester.searchSteps, hmodes]
  have hrow : (t.assertValidResults E [r]).run (t.Runner.Search (searchModeQuery E mode) s1).2
      = (some (.errorf "Result row 1 has zero size"),
         (t.Runner.Search (searchModeQuery E mode) s1).2, []) := by
    simp only [Tester.assertValidResults, Tester.assertValidResultsFrom, htitle, hsize,
      if_true, if_false]
    rfl
  simp only [Act.run_eq, Prod.mk.injEq] at hrow
  have hfail : (t.stepFn E (Step.search mode)).ret ((t.runSteps E t.loginSteps).after s) =
      some (.errorf "Result row 1 has zero size") := by
    rw [hs1]
    show (t.testSearchMode E mode).ret s1 = _
    rw [testSearchMode_ret, hsearch]
    exact hrow.1
  obtain ⟨hret, _, hevents⟩ := Test_first_failure E t s _ _ _ _ horder hlogin hfail
  refine ⟨hret, ?_, ?_⟩
  · rw [hevents, stepsAttempted_first_failure E t s _ _ _ hlogin]
  · rw [hevents, adapterCalls_first_failure, loginSteps_calls E t s hlogin, hs1,
      stepFn_search_events, hsearch]
    simp only [hrow.2.2]
    rfl

/-- C10, witness: the adapter of scenario C, with a login block and two search modes. -/
theorem scenarioC_zero_size_witness :
    (scenarioCTester.Test exampleEnv).ret 0 = some (.errorf "Result row 1 has zero size") ∧
    stepsAttempted ((scenarioCTester.Test exampleEnv).events 0) =
      scenarioCTester.loginSteps ++ [Step.search { Key := "search" }] ∧
    adapterCalls ((scenarioCTester.Test exampleEnv).events 0) =
      (if scenarioCTester.Runner.definition.Login.IsEmpty then []
        else [Event.checkHasConfig none, Event.login none]) ++
      [Event.Search (searchModeQuery exampleEnv { Key := "search" }) [zeroSizeItem] none] :=
  scenarioC_zero_size exampleEnv scenarioCTester 0 2 { Key := "search" }
    [{ Key := "tv-search" }] zeroSizeItem rfl (by decide) (by decide) rfl (by decide) rfl

end EndToEnd

section ReportingClaims

variable {σ : Type}

/-- C11: for every label, argument list and step function `f`, `printfWithResult` runs `f`
exactly once (the world after is the world `f` leaves when run from the world before, and
the events of `f` occur once), returns exactly what `f` returned, and prints the label
before the events of `f` and one status line after them, whose marker is SUCCESS when `f`
returned nil and FAILURE otherwise. -/
theorem printfWithResult_decorates_only (E : Env σ) (t : Tester σ) (format : String)
    (args : List String) (f : Act σ (Option GoError)) (s : σ) :
    (t.printfWithResult E format args f).ret s = f.ret s ∧
    (t.printfWithResult E format args f).after s = f.after s ∧
    (t.printfWithResult E format args f).events s =
      [Event.fprintf t.writer (format ++ " ") args] ++ f.events s ++
        [Event.fprintf t.writer "%s %s\n"
          [if f.ret s = none then E.ansiColor "SUCCESS ✓" "green"
            else E.ansiColor "FAILURE ✗" "red",
           E.ansiColor ("in " ++ E.durationString (E.timeNow (f.after s) - E.timeNow s))
            "white"]] := by
  refine ⟨printfWithResult_ret E t format args f s, printfWithResult_after E t format args f s,
    ?_⟩
  rw [printfWithResult_events]
  simp only [Tester.statusEvent]
  cases f.ret s <;> simp

/-- An event of a run of steps is a step label, a status line, or an event of the step
function of one of the steps. -/
theorem runSteps_events_kind (E : Env σ) (t : Tester σ) (steps : List Step) (s : σ)
    (ev : Event) (hev : ev ∈ (t.runSteps E steps).events s) :
    (∃ st, ev = t.labelEvent st) ∨ (∃ err t0 t1, ev = t.statusEvent E err t0 t1) ∨
      ∃ st ∈ steps, ∃ s1, ev ∈ (t.stepFn E st).events s1 := by
  induction steps generalizing s with
  | nil => simp [Tester.runSteps] at hev
  | cons st rest ih =>
    have hstep : ev ∈ (t.runStep E st).events s →
        (∃ st, ev = t.labelEvent st) ∨ (∃ err t0 t1, ev = t.statusEvent E err t0 t1) ∨
          ∃ st2 ∈ st :: rest, ∃ s1, ev ∈ (t.stepFn E st2).events s1 := by
      intro h
      rw [runStep_events, List.mem_append, List.mem_cons, List.mem_singleton] at h
      rcases h with (h | h) | h
      · exact Or.inl ⟨st, h⟩
      · exact Or.inr (Or.inr ⟨st, List.mem_cons_self st rest, s, h⟩)
      · exact Or.inr (Or.inl ⟨_, _, _, h⟩)
    cases hst : (t.stepFn E st).ret s with
    | some e =>
      rw [Act.events, runSteps_cons_fail E t st rest s e hst] at hev
      exact hstep hev
    | none =>
      rw [Act.events, runSteps_cons_ok E t st rest s hst, List.mem_append] at hev
      rcases hev with h | h
      · exact hstep h
      · rcases ih _ h with h | h | ⟨st2, hmem, s1, h⟩
        · exact Or.inl h
        · exact Or.inr (Or.inl h)
        · exact Or.inr (Or.inr ⟨st2, List.mem_cons_of_mem st hmem, s1, h⟩)

theorem isSummary_labelEvent (t : Tester σ) (st : Step) :
    (t.labelEvent st).isSummary = false := by
  cases st <;> simp [Tester.labelEvent, Step.format, Event.isSummary]

theorem isSummary_statusEvent (E : Env σ) (t : Tester σ) (err : Option GoError) (t0 t1 : Int) :
    (t.statusEvent E err t0 t1).isSummary = false := by
  simp [Tester.statusEvent, Event.isSummary]

theorem isSummary_headerEvent (t : Tester σ) : t.headerEvent.isSummary = false := by
  simp [Tester.headerEvent, Event.isSummary]

theorem isSummary_summaryEvent (E : Env σ) (t : Tester σ) (err : Option GoError) :
    (t.summaryEvent E err).isSummary = true := by
  cases err <;> simp [Tester.summaryEvent, Event.isSummary]

/-- The steps print no summary line. -/
theorem summaryLines_runSteps (E : Env σ) (t : Tester σ) (steps : List Step) (s : σ) :
    summaryLines ((t.runSteps E steps).events s) = [] := by
  rw [summaryLines, List.filter_eq_nil_iff]
  intro ev hev
  rcases runSteps_events_kind E t steps s ev hev with ⟨st, h⟩ | ⟨err, t0, t1, h⟩ |
    ⟨st, _, s1, h⟩
  · rw [h, isSummary_labelEvent]; simp
  · rw [h, isSummary_statusEvent]; simp
  · have := stepFn_events_not_isPrint E t st s1 ev h
    cases ev <;> simp_all [Event.isPrint, Event.isSummary]

/-- C12: in every run of `Test` the last event is the summary line, and it is the only
summary line of the run. It names the adapter id; when `Test` returns an error `e` it is
the FAILED line with the message of `e`, and when `Test` returns nil it is the OK line. As
this holds of every run, it holds on every return path. -/
theorem Test_summary_line (E : Env σ) (t : Tester σ) (s : σ) :
    ((t.Test E).events s).getLast? = some (t.summaryEvent E ((t.Test E).ret s)) ∧
    summaryLines ((t.Test E).events s) = [t.summaryEvent E ((t.Test E).ret s)] ∧
    ((∃ e, (t.Test E).ret s = some e ∧
        t.summaryEvent E ((t.Test E).ret s) =
          Event.fprintf t.writer "→ Indexer %s %s with %s\n"
            [t.Runner.Info.ID, E.ansiColor "FAILED" "red", E.ansiColor e.Error "red"]) ∨
      ((t.Test E).ret s = none ∧
        t.summaryEvent E ((t.Test E).ret s) =
          Event.fprintf t.writer "→ Indexer %s is %s\n"
            [t.Runner.Info.ID, E.ansiColor "OK" "green"])) := by
  refine ⟨?_, ?_, ?_⟩
  · rw [Test_events, Test_ret]
    exact List.getLast?_concat _
  · rw [Test_events, Test_ret, ← List.singleton_append, List.append_assoc, summaryLines,
      List.filter_append, List.filter_append]
    have h := summaryLines_runSteps E t t.fixedOrder s
    rw [summaryLines] at h
    rw [h]
    simp [isSummary_headerEvent, isSummary_summaryEvent]
  · cases h : (t.Test E).ret s with
    | some e => exact Or.inl ⟨e, rfl, rfl⟩
    | none => exact Or.inr ⟨rfl, rfl⟩

/-- Running a list of steps returns nil exactly when every step succeeds. -/
theorem runSteps_ret_none_iff (E : Env σ) (t : Tester σ) (steps : List Step) :
    ∀ s : σ, (t.runSteps E steps).ret s = none ↔ t.stepsSucceed E steps s = true := by
  induction steps with
  | nil =>
    intro s
    simp [Tester.runSteps, Tester.stepsSucceed]
  | cons st rest ih =>
    intro s
    cases hst : (t.stepFn E st).ret s with
    | some e =>
      rw [Act.ret, runSteps_cons_fail E t st rest s e hst]
      simp [Tester.stepsSucceed, hst]
    | none =>
      rw [Act.ret, runSteps_cons_ok E t st rest s hst]
      simp only [Tester.stepsSucceed, hst]
      exact ih _

/-- The number of steps of the fixed order. -/
theorem fixedOrder_length (t : Tester σ) :
    t.fixedOrder.length = t.Runner.Capabilities.SearchModes.length +
      (if t.Runner.definition.Login.IsEmpty then 2 else 4) := by
  cases hl : t.Runner.definition.Login.IsEmpty <;>
    simp [Tester.fixedOrder, Tester.loginSteps, Tester.searchSteps, hl]

/-- C13: `Test` returns nil if and only if every applicable step succeeds (config check and
login when the definition has a login block, the search probe of every declared mode, the
empty-result probe, the ratio probe); and then the steps attempted are exactly the steps
of the fixed order, each once, and one status line is reported for each: n+2 for n
declared search modes without login, n+4 with login. -/
theorem Test_nil_iff_all_steps_succeed (E : Env σ) (t : Tester σ) (s : σ) :
    ((t.Test E).ret s = none ↔ t.stepsSucceed E t.fixedOrder s = true) ∧
    ((t.Test E).ret s = none →
      stepsAttempted ((t.Test E).events s) = t.fixedOrder ∧
      (statusLines ((t.Test E).events s)).length =
        t.Runner.Capabilities.SearchModes.length +
          (if t.Runner.definition.Login.IsEmpty then 2 else 4)) := by
  refine ⟨?_, ?_⟩
  · rw [Test_ret]
    exact runSteps_ret_none_iff E t t.fixedOrder s
  · intro h
    rw [Test_ret] at h
    obtain ⟨_, _, hevents⟩ := Test_all_succeed E t s h
    rw [hevents, stepsAttempted_wrap, statusLines_wrap,
      stepsAttempted_runSteps_ok E t _ s h, statusLines_runSteps_ok E t _ s h,
      fixedOrder_length]
    exact ⟨rfl, rfl⟩

/-- C13, witness: scenario A (one mode, no login) reports 3 steps; with a login block
whose steps pass and the same mode, 5 steps are reported. -/
theorem Test_nil_iff_all_steps_succeed_witness :
    (stepsAttempted ((scenarioATester.Test exampleEnv).events 0) = scenarioATester.fixedOrder ∧
      (statusLines ((scenarioATester.Test exampleEnv).events 0)).length = 1 + 2) ∧
    (stepsAttempted ((loginOkTester.Test exampleEnv).events 0) = loginOkTester.fixedOrder ∧
      (statusLines ((loginOkTester.Test exampleEnv).events 0)).length = 1 + 4) :=
  ⟨(Test_nil_iff_all_steps_succeed exampleEnv scenarioATester 0).2 (by decide),
   (Test_nil_iff_all_steps_succeed exampleEnv loginOkTester 0).2 (by decide)⟩

end ReportingClaims

section ProbeClaims

variable {σ : Type}

/-- C14: for every search mode, `testSearchMode` makes one `Search` call, first of all,
with a query whose type is the key of the mode, whose limit is 3, whose free-text and
series filters are empty, and whose categories are the ids of TV_HD and TV_SD when the key
is "tv-search" and none for every other key; it returns the error of `Search` unchanged
when there is one, and otherwise what `assertValidResults` returns on the results, run
from the world `Search` left. -/
theorem testSearchMode_query (E : Env σ) (t : Tester σ) (mode : SearchMode) (s : σ) :
    ∃ q : Query,
      q.Type_ = mode.Key ∧ q.Limit = 3 ∧ q.Q = "" ∧ q.Series = "" ∧
      q.Categories =
        (if mode.Key = "tv-search" then [E.CategoryTV_HD_ID, E.CategoryTV_SD_ID] else []) ∧
      (∃ tail, (t.testSearchMode E mode).events s =
          Event.Search q (t.Runner.Search q s).1.1 (t.Runner.Search q s).1.2 :: tail ∧
        ∀ ev ∈ tail, ev.isFetch = true) ∧
      (∀ e, (t.Runner.Search q s).1.2 = some e → (t.testSearchMode E mode).ret s = some e) ∧
      ((t.Runner.Search q s).1.2 = none →
        (t.testSearchMode E mode).ret s =
          (t.assertValidResults E (t.Runner.Search q s).1.1).ret (t.Runner.Search q s).2) := by
  refine ⟨searchModeQuery E mode, ?_, ?_, ?_, ?_, ?_, ?_, ?_, ?_⟩
  · unfold searchModeQuery; split <;> rfl
  · unfold searchModeQuery; split <;> rfl
  · unfold searchModeQuery; split <;> rfl
  · unfold searchModeQuery; split <;> rfl
  · unfold searchModeQuery; split <;> rfl
  · refine ⟨_, stepFn_search_events E t mode s, ?_⟩
    intro ev hev
    cases herr : (t.Runner.Search (searchModeQuery E mode) s).1.2 with
    | some err => simp [herr] at hev
    | none =>
      simp only [herr] at hev
      exact assertValidResultsFrom_events_isFetch E t _ 0 _ ev hev
  · intro e he
    rw [testSearchMode_ret, he]
  · intro he
    rw [testSearchMode_ret, he]

/-- Without the download check the validation loop is the check of the required fields:
it returns the error of the first item that lacks one, leaves the world as it was and
produces no event. -/
theorem assertValidResultsFrom_no_download (E : Env σ) (t : Tester σ)
    (hd : t.Opts.Download = false) (results : List ResultItem) :
    ∀ (idx : Nat) (s : σ),
      (t.assertValidResultsFrom E idx results).run s = (firstInvalidError idx results, s, []) := by
  induction results with
  | nil =>
    intro idx s
    rfl
  | cons x xs ih =>
    intro idx s
    by_cases hv : x.fieldsValid
    · rw [assertValidResultsFrom_cons_valid E t idx x xs hv]
      simp only [hd, Bool.false_eq_true, if_false, firstInvalidError, hv, if_true]
      exact ih (idx + 1) s
    · rw [Tester.assertValidResultsFrom]
      simp only [firstInvalidError, hv, if_false, invalidResultError]
      unfold ResultItem.fieldsValid at hv
      by_cases h1 : x.Title = ""
      · simp only [h1, if_true]; rfl
      by_cases h2 : x.Size = 0
      · simp only [h1, h2, if_true, if_false, Nat.lt_irrefl, not_false_eq_true]; rfl
      have h2p : 0 < x.Size := Nat.pos_of_ne_zero h2
      by_cases h3 : x.Link = ""
      · simp only [h1, h2, h3, h2p, if_true, if_false, not_true_eq_false]; rfl
      by_cases h4 : x.Site = ""
      · simp only [h1, h2, h3, h4, h2p, if_true, if_false, not_true_eq_false]; rfl
      exact absurd ⟨h1, h2p, h3, h4⟩ hv

/-- The outcome of the field check is nil exactly when every item has its fields. -/
theorem firstInvalidError_eq_none_iff (results : List ResultItem) :
    ∀ idx : Nat, firstInvalidError idx results = none ↔ ∀ r ∈ results, r.fieldsValid := by
  induction results with
  | nil =>
    intro idx
    simp [firstInvalidError]
  | cons x xs ih =>
    intro idx
    by_cases hv : x.fieldsValid
    · simp [firstInvalidError, hv, ih (idx + 1)]
    · simp [firstInvalidError, hv]

/-- The outcome of the field check on a list whose first invalid item is known. -/
theorem firstInvalidError_append (pre : List ResultItem) (item : ResultItem)
    (post : List ResultItem) (hpre : ∀ r ∈ pre, r.fieldsValid) (hbad : ¬ item.fieldsValid) :
    ∀ idx : Nat, firstInvalidError idx (pre ++ item :: post) =
      some (invalidResultError (idx + pre.length + 1) item) := by
  induction pre with
  | nil =>
    intro idx
    simp [firstInvalidError, hbad]
  | cons x xs ih =>
    intro idx
    have hx : x.fieldsValid := hpre x (List.mem_cons_self x xs)
    have := ih (fun r hr => hpre r (List.mem_cons_of_mem x hr)) (idx + 1)
    show firstInvalidError idx (x :: (xs ++ item :: post)) = _
    rw [firstInvalidError, if_pos hx, this, List.length_cons,
      show idx + 1 + xs.length + 1 = idx + (xs.length + 1) + 1 by omega]

/-- C16: without the download check, `assertValidResults` produces no event at all on any
list, so it makes no call to the adapter and in particular none to `Runner.Download`, it
leaves the world as it was, and what it returns is a function of the list alone
(`firstInvalidError`, which mentions neither the tester nor the world); consequently no
run of `Test` without the download check calls `Runner.Download`. -/
theorem no_download_without_option (E : Env σ) (t : Tester σ) (hd : t.Opts.Download = false) :
    (∀ (results : List ResultItem) (s : σ),
      (t.assertValidResults E results).events s = [] ∧
      (t.assertValidResults E results).after s = s ∧
      (t.assertValidResults E results).ret s = firstInvalidError 0 results) ∧
    (∀ (s : σ), ∀ ev ∈ (t.Test E).events s, ∀ link err, ev ≠ Event.Download link err) := by
  refine ⟨?_, ?_⟩
  · intro results s
    have h := assertValidResultsFrom_no_download E t hd results 0 s
    simp only [Act.run_eq, Prod.mk.injEq] at h
    exact ⟨h.2.2, h.2.1, h.1⟩
  · intro s ev hev link err heq
    subst heq
    rw [Test_events, List.mem_append, List.mem_cons, List.mem_singleton] at hev
    rcases hev with (h | h) | h
    · exact Event.noConfusion h
    · rcases runSteps_events_kind E t _ s _ h with ⟨st, h⟩ | ⟨e, t0, t1, h⟩ | ⟨st, _, s1, h⟩
      · exact Event.noConfusion h
      · exact Event.noConfusion h
      · cases st with
        | config => rw [stepFn_config_events] at h; simp at h
        | login => rw [stepFn_login_events] at h; simp at h
        | search mode =>
          rw [stepFn_search_events, List.mem_cons] at h
          rcases h with h | h
          · exact Event.noConfusion h
          · have hnil := assertValidResultsFrom_no_download E t hd
              (t.Runner.Search (searchModeQuery E mode) s1).1.1 0
              (t.Runner.Search (searchModeQuery E mode) s1).2
            simp only [Act.run_eq, Prod.mk.injEq] at hnil
            cases herr : (t.Runner.Search (searchModeQuery E mode) s1).1.2 with
            | some e => simp [herr] at h
            | none =>
              simp only [herr] at h
              rw [Tester.assertValidResults, hnil.2.2] at h
              simp at h
        | emptyResults => rw [stepFn_emptyResults_events] at h; simp at h
        | ratio => rw [stepFn_ratio_events] at h; simp at h
    · cases hr : (t.runSteps E t.fixedOrder).ret s <;> rw [hr] at h <;>
        exact Event.noConfusion h

/-- C16, witness: scenario A without the download check, whose results have http links. -/
theorem no_download_without_option_witness :
    (∀ (results : List ResultItem) (s : Nat),
      (scenarioATester.assertValidResults exampleEnv results).events s = [] ∧
      (scenarioATester.assertValidResults exampleEnv results).after s = s ∧
      (scenarioATester.assertValidResults exampleEnv results).ret s =
        firstInvalidError 0 results) ∧
    (∀ (s : Nat), ∀ ev ∈ (scenarioATester.Test exampleEnv).events s, ∀ link err,
      ev ≠ Event.Download link err) :=
  no_download_without_option exampleEnv scenarioATester rfl

/-- C18: without the download check, `assertValidResults` returns an error if and only if
some item has an empty title, a size that is not greater than zero, an empty link or an
empty site; the error is then that of the first such item: it cites its 1-based index and
its first missing field in the order title, size, link, site ("Result row i has empty
title", "... has zero size", "... has blank link", "... has blank site"). -/
theorem assertValidResults_field_check (E : Env σ) (t : Tester σ) (s : σ)
    (results : List ResultItem) (hd : t.Opts.Download = false) :
    ((t.assertValidResults E results).ret s ≠ none ↔
      ∃ item ∈ results,
        item.Title = "" ∨ ¬ 0 < item.Size ∨ item.Link = "" ∨ item.Site = "") ∧
    (∀ (pre : List ResultItem) (item : ResultItem) (post : List ResultItem),
      results = pre ++ item :: post → (∀ r ∈ pre, r.fieldsValid) → ¬ item.fieldsValid →
      (t.assertValidResults E results).ret s =
        some (if item.Title = "" then
            .errorf ("Result row " ++ toString (pre.length + 1) ++ " has empty title")
          else if ¬ 0 < item.Size then
            .errorf ("Result row " ++ toString (pre.length + 1) ++ " has zero size")
          else if item.Link = "" then
            .errorf ("Result row " ++ toString (pre.length + 1) ++ " has blank link")
          else .errorf ("Result row " ++ toString (pre.length + 1) ++ " has blank site"))) := by
  have h := assertValidResultsFrom_no_download E t hd results 0 s
  simp only [Act.run_eq, Prod.mk.injEq] at h
  have hret : (t.assertValidResults E results).ret s = firstInvalidError 0 results := h.1
  refine ⟨?_, ?_⟩
  · rw [hret, Ne, firstInvalidError_eq_none_iff]
    simp only [ResultItem.fieldsValid]
    constructor
    · intro hne
      by_contra hcon
      apply hne
      intro r hr
      by_contra hr2
      apply hcon
      refine ⟨r, hr, ?_⟩
      by_cases h1 : r.Title = ""
      · exact Or.inl h1
      by_cases h2 : 0 < r.Size
      · by_cases h3 : r.Link = ""
        · exact Or.inr (Or.inr (Or.inl h3))
        · by_cases h4 : r.Site = ""
          · exact Or.inr (Or.inr (Or.inr h4))
          · exact absurd ⟨h1, h2, h3, h4⟩ hr2
      · exact Or.inr (Or.inl h2)
    · rintro ⟨item, hmem, hbad⟩ hall
      obtain ⟨h1, h2, h3, h4⟩ := hall item hmem
      rcases hbad with h | h | h | h
      · exact h1 h
      · exact h h2
      · exact h3 h
      · exact h4 h
  · intro pre item post hsplit hpre hbad
    rw [hret, hsplit, firstInvalidError_append pre item post hpre hbad 0, Nat.zero_add]
    rfl

/-- C18, witness: the first invalid item of the list is the third, whose link is empty;
row 3 is cited with the blank link, not the later item without a title. -/
theorem assertValidResults_field_check_witness :
    (scenarioATester.assertValidResults exampleEnv
        [goodItem, magnetItem, noLinkItem, noTitleItem]).ret 0 =
      some (.errorf "Result row 3 has blank link") :=
  (assertValidResults_field_check exampleEnv scenarioATester 0
    [goodItem, magnetItem, noLinkItem, noTitleItem] rfl).2 [goodItem, magnetItem] noLinkItem
    [noTitleItem] rfl (by decide) (by decide)

end ProbeClaims

section RatioClaims

variable {σ : Type}

/-- The validation loop does not depend on what `Ratio` does. -/
theorem assertValidResultsFrom_withRatio (E : Env σ) (t : Tester σ)
    (ratio : σ → (String × Option GoError) × σ) (results : List ResultItem) :
    ∀ idx : Nat, (t.withRatio ratio).assertValidResultsFrom E idx results =
      t.assertValidResultsFrom E idx results := by
  induction results with
  | nil =>
    intro idx
    rfl
  | cons x xs ih =>
    intro idx
    rw [Tester.assertValidResultsFrom, Tester.assertValidResultsFrom, ih (idx + 1)]
    rfl

/-- The step functions other than the ratio probe do not depend on what `Ratio` does. -/
theorem stepFn_withRatio (E : Env σ) (t : Tester σ)
    (ratio : σ → (String × Option GoError) × σ) (st : Step) (hst : st ≠ Step.ratio) :
    (t.withRatio ratio).stepFn E st = t.stepFn E st := by
  cases st with
  | config => rfl
  | login => rfl
  | search mode =>
    show (t.withRatio ratio).testSearchMode E mode = t.testSearchMode E mode
    unfold Tester.testSearchMode Tester.assertValidResults
    simp only [assertValidResultsFrom_withRatio]
    rfl
  | emptyResults => rfl
  | ratio => exact absurd rfl hst

/-- What the ratio probe returns and the world it leaves are those of `Ratio`. -/
theorem ratioProbe_ret_after (t : Tester σ) (s : σ) :
    t.ratioProbe.ret s = (t.Runner.Ratio s).1.2 ∧ t.ratioProbe.after s = (t.Runner.Ratio s).2 :=
  ⟨rfl, rfl⟩

/-- The outcome of a run of steps does not depend on the ratio string. -/
theorem runSteps_withRatio (E : Env σ) (t : Tester σ)
    (ratio : σ → (String × Option GoError) × σ)
    (hsame : ∀ s, (ratio s).1.2 = (t.Runner.Ratio s).1.2 ∧ (ratio s).2 = (t.Runner.Ratio s).2)
    (steps : List Step) :
    ∀ s : σ, ((t.withRatio ratio).runSteps E steps).ret s = (t.runSteps E steps).ret s ∧
      ((t.withRatio ratio).runSteps E steps).after s = (t.runSteps E steps).after s := by
  induction steps with
  | nil =>
    intro s
    exact ⟨rfl, rfl⟩
  | cons st rest ih =>
    intro s
    have hstep : ((t.withRatio ratio).stepFn E st).ret s = (t.stepFn E st).ret s ∧
        ((t.withRatio ratio).stepFn E st).after s = (t.stepFn E st).after s := by
      by_cases hst : st = Step.ratio
      · subst hst
        exact ⟨(hsame s).1, (hsame s).2⟩
      · rw [stepFn_withRatio E t ratio st hst]
        exact ⟨rfl, rfl⟩
    cases h : (t.stepFn E st).ret s with
    | some e =>
      have h2 : ((t.withRatio ratio).stepFn E st).ret s = some e := by rw [hstep.1, h]
      have a := runSteps_cons_fail E t st rest s e h
      have b := runSteps_cons_fail E (t.withRatio ratio) st rest s e h2
      simp only [Act.run_eq, Prod.mk.injEq] at a b
      exact ⟨by rw [b.1, a.1], by rw [b.2.1, a.2.1, hstep.2]⟩
    | none =>
      have h2 : ((t.withRatio ratio).stepFn E st).ret s = none := by rw [hstep.1, h]
      have a := runSteps_cons_ok E t st rest s h
      have b := runSteps_cons_ok E (t.withRatio ratio) st rest s h2
      simp only [Act.run_eq, Prod.mk.injEq] at a b
      have hi := ih ((t.stepFn E st).after s)
      exact ⟨by rw [b.1, a.1, hstep.2, hi.1], by rw [b.2.1, a.2.1, hstep.2, hi.2]⟩

/-- C17: the ratio probe returns exactly the error of `Runner.Ratio`, so it succeeds if and
only if that error is nil, whatever the ratio string; and for two adapters that differ only
in the ratio string `Ratio` returns (same error, same effect on the world), `Test` returns
the same result and leaves the same world. -/
theorem ratio_value_not_validated (E : Env σ) (t : Tester σ)
    (ratio : σ → (String × Option GoError) × σ) (s : σ)
    (hsame : ∀ s, (ratio s).1.2 = (t.Runner.Ratio s).1.2 ∧
      (ratio s).2 = (t.Runner.Ratio s).2) :
    ((t.withRatio ratio).Test E).ret s = (t.Test E).ret s ∧
    ((t.withRatio ratio).Test E).after s = (t.Test E).after s ∧
    t.ratioProbe.ret s = (t.Runner.Ratio s).1.2 ∧
    (t.ratioProbe.ret s = none ↔ (t.Runner.Ratio s).1.2 = none) := by
  have hfo : (t.withRatio ratio).fixedOrder = t.fixedOrder := rfl
  have h := runSteps_withRatio E t ratio hsame t.fixedOrder s
  refine ⟨?_, ?_, rfl, Iff.rfl⟩
  · rw [Test_ret, Test_ret, hfo, h.1]
  · rw [Test_after, Test_after, hfo, h.2]

/-- C17, witness: scenario A, whose ratio is "1.5", against the same adapter returning
the empty string as its ratio. -/
theorem ratio_value_not_validated_witness :
    ((scenarioATester.withRatio (fun s => (("", none), s + 1))).Test exampleEnv).ret 0 =
      (scenarioATester.Test exampleEnv).ret 0 ∧
    ((scenarioATester.withRatio (fun s => (("", none), s + 1))).Test exampleEnv).after 0 =
      (scenarioATester.Test exampleEnv).after 0 ∧
    scenarioATester.ratioProbe.ret 0 = (scenarioATester.Runner.Ratio 0).1.2 ∧
    (scenarioATester.ratioProbe.ret 0 = none ↔ (scenarioATester.Runner.Ratio 0).1.2 = none) :=
  ratio_value_not_validated exampleEnv scenarioATester (fun s => (("", none), s + 1)) 0
    (fun _ => ⟨rfl, rfl⟩)

end RatioClaims

section StreamClaims

variable {σ : Type}

/-- The events of a torrent check, by outcome: none when the link does not parse or is a
magnet link, the failed `Download` call, or the successful `Download` call followed by the
read of its stream and the close of its stream. -/
theorem assertValidTorrent_events_cases (E : Env σ) (t : Tester σ) (result : ResultItem)
    (s : σ) :
    ((t.assertValidTorrent E result).events s = [] ∧ E.fetches result = false) ∨
    ((∃ err, (t.assertValidTorrent E result).events s =
        [Event.Download result.Link (some err)] ∧
        (t.assertValidTorrent E result).ret s = some err) ∧ E.fetches result = true) ∨
    ((∃ r, (t.assertValidTorrent E result).events s =
        [Event.Download result.Link none, Event.copy result.Link r, Event.close result.Link] ∧
        (t.assertValidTorrent E result).ret s = r) ∧ E.fetches result = true) := by
  cases hparse : E.urlParse result.Link with
  | error err =>
    left
    rw [Act.events, assertValidTorrent_parse_error E t result s err hparse]
    exact ⟨rfl, by simp [Env.fetches, hparse]⟩
  | ok u =>
    by_cases hmag : u.Scheme = "magnet"
    · left
      rw [Act.events, assertValidTorrent_magnet E t result s u hparse hmag]
      exact ⟨rfl, by simp [Env.fetches, hparse, hmag]⟩
    · have hf : E.fetches result = true := by simp [Env.fetches, hparse, hmag]
      cases hdl : (t.Runner.Download result.Link s).1 with
      | error err =>
        right; left
        rw [Act.events, Act.ret,
          assertValidTorrent_download_error E t result s u hparse hmag err hdl]
        exact ⟨⟨err, rfl, rfl⟩, hf⟩
      | ok rc =>
        right; right
        rw [Act.events, Act.ret,
          assertValidTorrent_download_ok E t result s u hparse hmag rc hdl]
        exact ⟨⟨_, rfl, rfl⟩, hf⟩

/-- The events of the validation loop on an item whose fields are present, with the
download check: those of its torrent check, then those of the rest when it passed. -/
theorem assertValidResultsFrom_cons_events (E : Env σ) (t : Tester σ) (idx : Nat)
    (x : ResultItem) (xs : List ResultItem) (s : σ) (hv : x.fieldsValid)
    (hd : t.Opts.Download = true) :
    (t.assertValidResultsFrom E idx (x :: xs)).events s =
      (t.assertValidTorrent E x).events s ++
        (match (t.assertValidTorrent E x).ret s with
          | some _ => []
          | none => (t.assertValidResultsFrom E (idx + 1) xs).events
              ((t.assertValidTorrent E x).after s)) ∧
    (t.assertValidResultsFrom E idx (x :: xs)).ret s =
      (match (t.assertValidTorrent E x).ret s with
        | some err => some err
        | none => (t.assertValidResultsFrom E (idx + 1) xs).ret
            ((t.assertValidTorrent E x).after s)) := by
  rw [assertValidResultsFrom_cons_valid E t idx x xs hv]
  simp only [hd, if_true, Act.events_bind, Act.ret_bind]
  cases (t.assertValidTorrent E x).ret s <;> exact ⟨rfl, rfl⟩

/-- The validation loop on an item that lacks a required field: the invalid-result error
of the item, nothing done. -/
theorem assertValidResultsFrom_cons_invalid_run (E : Env σ) (t : Tester σ) (idx : Nat)
    (x : ResultItem) (xs : List ResultItem) (s : σ) (hv : ¬ x.fieldsValid) :
    (t.assertValidResultsFrom E idx (x :: xs)).run s =
      (some (invalidResultError (idx + 1) x), s, []) := by
  rw [Tester.assertValidResultsFrom]
  simp only [invalidResultError]
  unfold ResultItem.fieldsValid at hv
  by_cases h1 : x.Title = ""
  · simp only [h1, if_true]; rfl
  by_cases h2 : x.Size = 0
  · simp only [h1, h2, if_true, if_false, Nat.lt_irrefl, not_false_eq_true]; rfl
  have h2p : 0 < x.Size := Nat.pos_of_ne_zero h2
  by_cases h3 : x.Link = ""
  · simp only [h1, h2, h3, h2p, if_true, if_false, not_true_eq_false]; rfl
  by_cases h4 : x.Site = ""
  · simp only [h1, h2, h3, h4, h2p, if_true, if_false, not_true_eq_false]; rfl
  exact absurd ⟨h1, h2p, h3, h4⟩ hv

/-- The stream discipline is followed along the events of the validation loop: from no
stream open to no stream open. -/
theorem streamProtocol_assertValidResultsFrom (E : Env σ) (t : Tester σ)
    (results : List ResultItem) :
    ∀ (idx : Nat) (s : σ),
      streamProtocol .idle ((t.assertValidResultsFrom E idx results).events s) = some .idle := by
  induction results with
  | nil =>
    intro idx s
    rfl
  | cons x xs ih =>
    intro idx s
    by_cases hv : x.fieldsValid
    · cases hd : t.Opts.Download with
      | false =>
        have h := assertValidResultsFrom_no_download E t hd (x :: xs) idx s
        simp only [Act.run_eq, Prod.mk.injEq] at h
        rw [h.2.2]
        rfl
      | true =>
        rw [(assertValidResultsFrom_cons_events E t idx x xs s hv hd).1]
        rcases assertValidTorrent_events_cases E t x s with ⟨h, _⟩ | ⟨⟨err, h, hr⟩, _⟩ |
          ⟨⟨r, h, hr⟩, _⟩
        · rw [h, List.nil_append]
          cases (t.assertValidTorrent E x).ret s with
          | some e => rfl
          | none => exact ih _ _
        · rw [h, hr]
          rfl
        · rw [h, hr]
          cases r with
          | some e => simp [streamProtocol]
          | none =>
            simp only [List.cons_append, List.nil_append, streamProtocol, if_true]
            exact ih _ _
    · have h := assertValidResultsFrom_cons_invalid_run E t idx x xs s hv
      simp only [Act.run_eq, Prod.mk.injEq] at h
      rw [h.2.2]
      rfl

/-- C15: along the events of `assertValidResults`, whatever the download option and so
with the download check on, the discipline of download streams is followed from no stream
open to no stream open: every stream a successful `Runner.Download` returns is read, then
closed once, before the next `Download` call, also when the read fails; at no point are two
streams open, and none is open when `assertValidResults` returns. -/
theorem download_streams_closed (E : Env σ) (t : Tester σ) (results : List ResultItem)
    (s : σ) :
    streamProtocol .idle ((t.assertValidResults E results).events s) = some .idle :=
  streamProtocol_assertValidResultsFrom E t results 0 s

/-- C15, witness: a stream whose read fails is closed all the same, and two streams that
are read to the end are opened and closed one after the other. -/
theorem download_streams_closed_witness :
    (brokenStreamTester.assertValidResults exampleEnv [goodItem, goodItem]).events 0 =
      [Event.Download "http://x/1" none,
       Event.copy "http://x/1" (some (.foreign "unexpected EOF")),
       Event.close "http://x/1"] ∧
    (okStreamTester.assertValidResults exampleEnv [goodItem, goodItem]).events 0 =
      [Event.Download "http://x/1" none, Event.copy "http://x/1" none,
       Event.close "http://x/1",
       Event.Download "http://x/1" none, Event.copy "http://x/1" none,
       Event.close "http://x/1"] ∧
    streamProtocol .idle
      ((brokenStreamTester.assertValidResults exampleEnv [goodItem, goodItem]).events 0) =
        some .idle ∧
    streamProtocol .idle
      ((okStreamTester.assertValidResults exampleEnv [goodItem, goodItem]).events 0) =
        some .idle :=
  ⟨by decide, by decide,
   download_streams_closed exampleEnv brokenStreamTester [goodItem, goodItem] 0,
   download_streams_closed exampleEnv okStreamTester [goodItem, goodItem] 0⟩

end StreamClaims

section FetchOrderClaims

variable {σ : Type}

theorem downloadLinks_append (a b : List Event) :
    downloadLinks (a ++ b) = downloadLinks a ++ downloadLinks b :=
  List.filterMap_append a b _

/-- A torrent check calls `Download` once, with the link of the item, exactly when the
link parses and is not a magnet link, whatever the outcome of the check. -/
theorem downloadLinks_assertValidTorrent (E : Env σ) (t : Tester σ) (x : ResultItem) (s : σ) :
    downloadLinks ((t.assertValidTorrent E x).events s) =
      if E.fetches x = true then [x.Link] else [] := by
  rcases assertValidTorrent_events_cases E t x s with ⟨h, hf⟩ | ⟨⟨err, h, _⟩, hf⟩ |
    ⟨⟨r, h, _⟩, hf⟩ <;> rw [h, hf] <;> simp [downloadLinks]

/-- The `Download` calls of a validation loop in which every item passes. -/
theorem downloadLinks_all_pass (E : Env σ) (t : Tester σ) (hd : t.Opts.Download = true)
    (results : List ResultItem) :
    ∀ (idx : Nat) (s : σ), (t.assertValidResultsFrom E idx results).ret s = none →
      downloadLinks ((t.assertValidResultsFrom E idx results).events s) =
        (results.filter E.fetches).map ResultItem.Link := by
  induction results with
  | nil =>
    intro idx s _
    rfl
  | cons x xs ih =>
    intro idx s h
    have hv := fieldsValid_of_assertValidResultsFrom_cons E t idx x xs s h
    obtain ⟨hev, hret⟩ := assertValidResultsFrom_cons_events E t idx x xs s hv hd
    rw [hret] at h
    rw [hev, downloadLinks_append, downloadLinks_assertValidTorrent]
    cases htor : (t.assertValidTorrent E x).ret s with
    | some e => simp [htor] at h
    | none =>
      simp only [htor] at h ⊢
      rw [ih _ _ h]
      cases hf : E.fetches x <;> simp [List.filter_cons, hf]

/-- The validation loop on an item that fails does not look at the items after it. -/
theorem assertValidResultsFrom_cons_failing (E : Env σ) (t : Tester σ)
    (hd : t.Opts.Download = true) (idx : Nat) (x : ResultItem) (xs : List ResultItem) (s : σ)
    (e : GoError) (h : (t.assertValidResultsFrom E idx [x]).ret s = some e) :
    (t.assertValidResultsFrom E idx (x :: xs)).ret s = some e ∧
    downloadLinks ((t.assertValidResultsFrom E idx (x :: xs)).events s) =
      if x.fieldsValid ∧ E.fetches x = true then [x.Link] else [] := by
  by_cases hv : x.fieldsValid
  · obtain ⟨hev, hret⟩ := assertValidResultsFrom_cons_events E t idx x xs s hv hd
    obtain ⟨_, hret1⟩ := assertValidResultsFrom_cons_events E t idx x [] s hv hd
    rw [hret1] at h
    rw [hev, hret, downloadLinks_append, downloadLinks_assertValidTorrent]
    cases htor : (t.assertValidTorrent E x).ret s with
    | none =>
      simp only [htor] at h
      exact absurd h (by simp [Tester.assertValidResultsFrom])
    | some e2 =>
      simp only [htor] at h ⊢
      refine ⟨h, ?_⟩
      simp [hv, downloadLinks]
  · have h1 := assertValidResultsFrom_cons_invalid_run E t idx x xs s hv
    have h2 := assertValidResultsFrom_cons_invalid_run E t idx x [] s hv
    simp only [Act.run_eq, Prod.mk.injEq] at h1 h2
    rw [h2.1] at h
    rw [h1.1, h1.2.2]
    refine ⟨h, ?_⟩
    simp [hv, downloadLinks]

/-- C19: with the download check on, `assertValidResults` validates and fetches item by
item. When every item passes, `Runner.Download` is called, in list order, exactly for the
items whose link parses and is not a magnet link. When the items of `pre` pass and the next
item fails with error `e`, the same error is returned whatever items follow (so a download
error of an earlier item is returned even though a later item lacks a field), and
`Download` is called, in list order, for the non-magnet links of `pre`, then for the
failing item itself exactly when its fields are present and its link parses and is not a
magnet link (its failure is then a download failure), and for no item after it. -/
theorem downloads_item_by_item (E : Env σ) (t : Tester σ) (s : σ)
    (hd : t.Opts.Download = true) :
    (∀ results : List ResultItem, (t.assertValidResults E results).ret s = none →
      downloadLinks ((t.assertValidResults E results).events s) =
        (results.filter E.fetches).map ResultItem.Link) ∧
    (∀ (pre : List ResultItem) (item : ResultItem) (post : List ResultItem) (e : GoError),
      (t.assertValidResults E pre).ret s = none →
      (t.assertValidResults E (pre ++ [item])).ret s = some e →
      (t.assertValidResults E (pre ++ item :: post)).ret s = some e ∧
      downloadLinks ((t.assertValidResults E (pre ++ item :: post)).events s) =
        (pre.filter E.fetches).map ResultItem.Link ++
          (if item.fieldsValid ∧ E.fetches item = true then [item.Link] else [])) := by
  refine ⟨fun results h => downloadLinks_all_pass E t hd results 0 s h, ?_⟩
  intro pre item post e hpre hitem
  have h1 := assertValidResultsFrom_append E t pre [item] 0 s hpre
  have h2 := assertValidResultsFrom_append E t pre (item :: post) 0 s hpre
  simp only [Act.run_eq, Prod.mk.injEq] at h1 h2
  have hitem2 : (t.assertValidResultsFrom E (0 + pre.length) [item]).ret
      ((t.assertValidResultsFrom E 0 pre).after s) = some e := by
    rw [← h1.1]; exact hitem
  obtain ⟨hr, hl⟩ := assertValidResultsFrom_cons_failing E t hd _ item post _ e hitem2
  refine ⟨?_, ?_⟩
  · rw [Tester.assertValidResults, h2.1, hr]
  · rw [Tester.assertValidResults, h2.2.2, downloadLinks_append, hl,
      downloadLinks_all_pass E t hd pre 0 s hpre]

/-- C19, witness: the download of the second item fails, the fourth item has no title:
the download error is returned, and `Download` was called for the second item only (the
first is a magnet link, the third and fourth are not reached). -/
theorem downloads_item_by_item_witness :
    (downloadingTester.assertValidResults exampleEnv
        ([magnetItem] ++ goodItem :: [goodItem, noTitleItem])).ret 0 =
      some (.foreign "download failed") ∧
    downloadLinks ((downloadingTester.assertValidResults exampleEnv
        ([magnetItem] ++ goodItem :: [goodItem, noTitleItem])).events 0) =
      ["http://x/1"] :=
  (downloads_item_by_item exampleEnv downloadingTester 0 rfl).2 [magnetItem] goodItem
    [goodItem, noTitleItem] (.foreign "download failed") (by decide) (by decide)

end FetchOrderClaims

section DeadCheckClaims

variable {σ : Type}

/-- Two strings that end differently are different. -/
theorem append_ne_of_suffix_ne (a b x y : String) (n : Nat)
    (hx : n ≤ x.data.reverse.length) (hy : n ≤ y.data.reverse.length)
    (hne : x.data.reverse.take n ≠ y.data.reverse.take n) : a ++ x ≠ b ++ y := by
  intro h
  have h2 := congrArg (fun s : String => s.data.reverse.take n) h
  simp only [String.data_append, List.reverse_append] at h2
  rw [List.take_append_of_le_length hx, List.take_append_of_le_length hy] at h2
  exact hne h2

/-- The invalid-result error of an item never reads like the error of the second link
check, whatever the rows. -/
theorem invalidResultError_message_ne (k i : Nat) (item : ResultItem) :
    (invalidResultError k item).Error ≠ "Result row " ++ toString i ++ " has empty link" := by
  unfold invalidResultError
  split
  · exact append_ne_of_suffix_ne _ _ _ _ 1 (by decide) (by decide) (by decide)
  · split
    · exact append_ne_of_suffix_ne _ _ _ _ 1 (by decide) (by decide) (by decide)
    · split
      · exact append_ne_of_suffix_ne _ _ _ _ 6 (by decide) (by decide) (by decide)
      · exact append_ne_of_suffix_ne _ _ _ _ 1 (by decide) (by decide) (by decide)

/-- An error the validation loop returns is the invalid-result error of an item or, with
the download check, the error of the torrent check of an item of the list whose required
fields are present. -/
theorem assertValidResultsFrom_error_origin (E : Env σ) (t : Tester σ)
    (results : List ResultItem) :
    ∀ (idx : Nat) (s : σ) (e : GoError),
      (t.assertValidResultsFrom E idx results).ret s = some e →
      (∃ k item, e = invalidResultError k item) ∨
      (t.Opts.Download = true ∧
        ∃ item ∈ results, item.fieldsValid ∧
          ∃ s1, (t.assertValidTorrent E item).ret s1 = some e) := by
  induction results with
  | nil =>
    intro idx s e h
    simp [Tester.assertValidResultsFrom] at h
  | cons x xs ih =>
    intro idx s e h
    by_cases hv : x.fieldsValid
    · cases hd : t.Opts.Download with
      | false =>
        rw [assertValidResultsFrom_cons_valid E t idx x xs hv] at h
        simp only [hd, Bool.false_eq_true, if_false] at h
        rcases ih _ _ _ h with h2 | ⟨h2, _⟩
        · exact Or.inl h2
        · rw [hd] at h2
          exact absurd h2 (by simp)
      | true =>
        rw [(assertValidResultsFrom_cons_events E t idx x xs s hv hd).2] at h
        cases htor : (t.assertValidTorrent E x).ret s with
        | some err =>
          simp only [htor, Option.some.injEq] at h
          subst h
          exact Or.inr ⟨rfl, x, List.mem_cons_self x xs, hv, s, htor⟩
        | none =>
          simp only [htor] at h
          rcases ih _ _ _ h with h2 | ⟨_, item, hmem, h2⟩
          · exact Or.inl h2
          · exact Or.inr ⟨rfl, item, List.mem_cons_of_mem x hmem, h2⟩
    · have h1 := assertValidResultsFrom_cons_invalid_run E t idx x xs s hv
      simp only [Act.run_eq, Prod.mk.injEq] at h1
      rw [h1.1, Option.some.injEq] at h
      exact Or.inl ⟨_, _, h.symm⟩

/-- C20 (as amended): the second link check of `assertValidResults` is unreachable: no
error the checks of `assertValidResults` build reads "Result row i has empty link". When
`assertValidResults` returns an error that reads so, the download check is on and the
error is the one the torrent check of an item of the list returned (handed back unchanged
from `url.Parse`, `Runner.Download` or the read of a stream), an item whose required fields,
its link among them, are present; so without the download check no returned error reads so,
for any list, world and row. An empty link of an item with a title and a size is reported
as "Result row k has blank link" for its row k, when the items before it pass. -/
theorem second_link_check_unreachable (E : Env σ) (t : Tester σ) :
    (∀ (results : List ResultItem) (s : σ) (i : Nat) (e : GoError),
      (t.assertValidResults E results).ret s = some e →
      e.Error = "Result row " ++ toString i ++ " has empty link" →
      t.Opts.Download = true ∧
        ∃ item ∈ results, item.fieldsValid ∧
          ∃ s1, (t.assertValidTorrent E item).ret s1 = some e) ∧
    (t.Opts.Download = false →
      ∀ (results : List ResultItem) (s : σ) (i : Nat) (e : GoError),
        (t.assertValidResults E results).ret s = some e →
        e.Error ≠ "Result row " ++ toString i ++ " has empty link") ∧
    (∀ (pre : List ResultItem) (item : ResultItem) (post : List ResultItem) (s : σ),
      (t.assertValidResults E pre).ret s = none →
      item.Title ≠ "" → item.Size ≠ 0 → item.Link = "" →
      (t.assertValidResults E (pre ++ item :: post)).ret s =
        some (.errorf ("Result row " ++ toString (pre.length + 1) ++ " has blank link"))) := by
  have horigin : ∀ (results : List ResultItem) (s : σ) (i : Nat) (e : GoError),
      (t.assertValidResults E results).ret s = some e →
      e.Error = "Result row " ++ toString i ++ " has empty link" →
      t.Opts.Download = true ∧
        ∃ item ∈ results, item.fieldsValid ∧
          ∃ s1, (t.assertValidTorrent E item).ret s1 = some e := by
    intro results s i e h hmsg
    rcases assertValidResultsFrom_error_origin E t results 0 s e h with
      ⟨k, item, hk⟩ | hright
    · rw [hk] at hmsg
      exact absurd hmsg (invalidResultError_message_ne k i item)
    · exact hright
  refine ⟨horigin, ?_, ?_⟩
  · intro hd results s i e h hmsg
    obtain ⟨hd2, _⟩ := horigin results s i e h hmsg
    rw [hd] at hd2
    exact absurd hd2 (by simp)
  · intro pre item post s hpre h1 h2 h3
    have hv : ¬ item.fieldsValid := fun hv => hv.2.2.1 h3
    have happ := assertValidResultsFrom_append E t pre (item :: post) 0 s hpre
    have hrun := assertValidResultsFrom_cons_invalid_run E t (0 + pre.length) item post
      ((t.assertValidResultsFrom E 0 pre).after s) hv
    simp only [Act.run_eq, Prod.mk.injEq] at happ hrun
    rw [Tester.assertValidResults, happ.1, hrun.1, Nat.zero_add, invalidResultError,
      if_neg h1, if_neg (not_not.mpr (Nat.pos_of_ne_zero h2)), if_pos h3]

/-- C20, witness: an adapter whose download error reads like the error of the second
check: the error returned is the one of the torrent check of the one item, whose link is
not empty; without the download check nothing of the kind is returned for an item with an
empty link, and with it the empty link after a magnet item is reported as the blank link of
row 2. -/
theorem second_link_check_unreachable_witness :
    (misleadingTester.Opts.Download = true ∧
      ∃ item ∈ [goodItem], item.fieldsValid ∧
        ∃ s1, (misleadingTester.assertValidTorrent exampleEnv item).ret s1 =
          some (.foreign "Result row 1 has empty link")) ∧
    (GoError.errorf "Result row 1 has blank link").Error ≠
      "Result row " ++ toString 1 ++ " has empty link" ∧
    (downloadingTester.assertValidResults exampleEnv ([magnetItem] ++ noLinkItem :: [])).ret 0 =
      some (.errorf ("Result row " ++ toString ([magnetItem].length + 1) ++ " has blank link")) :=
  ⟨(second_link_check_unreachable exampleEnv misleadingTester).1 [goodItem] 0 1
      (.foreign "Result row 1 has empty link") (by decide) (by decide),
   (second_link_check_unreachable exampleEnv scenarioATester).2.1 rfl [noLinkItem] 0 1
      (.errorf "Result row 1 has blank link") (by decide),
   (second_link_check_unreachable exampleEnv downloadingTester).2.2 [magnetItem] noLinkItem []
      0 (by decide) (by decide) (by decide) rfl⟩

/-- C20, counterexample to the claim as stated: with the download check on, over an adapter
whose `Download` fails with an error reading "Result row 1 has empty link", the list of the
one valid item `goodItem`, whose link is not empty, makes `assertValidResults` return an
error that reads "Result row 1 has empty link": the download error, passed on unchanged. -/
theorem second_link_check_counterexample :
    misleadingTester.Opts.Download = true ∧ goodItem.fieldsValid ∧ goodItem.Link ≠ "" ∧
    (misleadingTester.Runner.Download goodItem.Link 0).1 =
      .error (.foreign "Result row 1 has empty link") ∧
    (misleadingTester.assertValidResults exampleEnv [goodItem]).ret 0 =
      some (.foreign "Result row 1 has empty link") ∧
    (GoError.foreign "Result row 1 has empty link").Error =
      "Result row " ++ toString 1 ++ " has empty link" :=
  ⟨rfl, by decide, by decide, rfl, by decide, by decide⟩

end DeadCheckClaims

end Cardigann
